import Mathlib

/-!
Shallow embedding of the libra LLVM-IR exporter (the `oracle` serializer
pass) together with proofs about its specification.

The embedding follows the C++ sources:
- `SerializeType.cpp`        : type serializer (`serialize_type` family)
- `SerializeConstant.cpp`    : constant serializer (`serialize_const` family)
- `SerializeValue.cpp`       : value dispatch (`serialize_value` family)
- `SerializeInstruction.cpp` : instruction serializer (`serialize_inst` family)
- `SerializeFunction.cpp`    : function / parameter / block serializer
- `SerializeGlobalVariable.cpp`, `SerializeModule.cpp`, `Serializer.cpp`
- `Metadata.cpp` : debug/intrinsic probes

LLVM entities are modelled with explicit `Nat` identities standing for the
pointer identity the C++ code keys its `std::map`s on.  `std::map::emplace`
and `std::map::at` become association-list operations; `LOG->fatal` and
failed `assert` become `Except.error`.
-/

namespace LibraSpec

/-- JSON values, mirroring `llvm::json::Value` as used by the serializer.
Objects are kept in insertion order. -/
inductive Json where
  | null
  | bool (b : Bool)
  | num (n : Int)
  | str (s : String)
  | arr (elems : List Json)
  | obj (fields : List (String × Json))
deriving Repr

/-- Lookup of a field inside a JSON object (none on non-objects). -/
def Json.lookup : Json → String → Option Json
  | .obj fields, k => fields.lookup k
  | _, _ => none

/-! ## Type universe (`llvm::Type`) and the type serializer -/

/-- The LLVM type universe, one constructor per `Type::TypeID` handled by
`serialize_type` in `SerializeType.cpp`.  Struct `fields` is `none` exactly
when the struct has no body; `vector` covers fixed (`fixedKind = true`) and
scalable vectors. -/
inductive LType where
  | void
  | integer (width : Nat)
  | half
  | bfloat
  | flt
  | dbl
  | x86fp80
  | fp128
  | ppcfp128
  | array (element : LType) (length : Nat)
  | struct (name : Option String) (fields : Option (List LType))
  | func (params : List LType) (variadic : Bool) (ret : LType)
  | pointer (addressSpace : Nat)
  | vector (element : LType) (fixedKind : Bool) (length : Nat)
  | extension (name : String) (params : List LType)
  | typedPointer (pointee : LType) (addressSpace : Nat)
  | label
  | token
  | x86amx
  | x86mmx
  | metadata
deriving Repr

/-- Helper `mk_float` from the anonymous namespace of `SerializeType.cpp`. -/
def mk_float (width : Nat) (name : String) : Json :=
  Json.obj [("width", Json.num width), ("name", Json.str name)]

/-- `serialize_type_int`: `{width: int}`. -/
def serialize_type_int (width : Nat) : Json :=
  Json.obj [("width", Json.num width)]

/-- `serialize_type_pointer`: `{address_space: int}`. -/
def serialize_type_pointer (addressSpace : Nat) : Json :=
  Json.obj [("address_space", Json.num addressSpace)]

mutual

/-- `serialize_type`: the total switch over `Type::TypeID`. -/
def serialize_type : LType → Json
  | .void => Json.obj [("Void", Json.null)]
  | .integer w => Json.obj [("Int", serialize_type_int w)]
  | .half => Json.obj [("Float", mk_float 16 "half")]
  | .bfloat => Json.obj [("Float", mk_float 16 "bfloat")]
  | .flt => Json.obj [("Float", mk_float 32 "float")]
  | .dbl => Json.obj [("Float", mk_float 64 "double")]
  | .x86fp80 => Json.obj [("Float", mk_float 80 "x86_fp80")]
  | .fp128 => Json.obj [("Float", mk_float 128 "fp128")]
  | .ppcfp128 => Json.obj [("Float", mk_float 128 "ppc_fp128")]
  | .array e n => Json.obj [("Array", serialize_type_array e n)]
  | .struct n fs => Json.obj [("Struct", serialize_type_struct n fs)]
  | .func ps v r => Json.obj [("Function", serialize_type_function ps v r)]
  | .pointer a => Json.obj [("Pointer", serialize_type_pointer a)]
  | .vector e fk n => Json.obj [("Vector", serialize_type_vector e fk n)]
  | .extension n ps => Json.obj [("Extension", serialize_type_extension n ps)]
  | .typedPointer p a => Json.obj [("TypedPointer", serialize_type_typed_pointer p a)]
  | .label => Json.obj [("Label", Json.null)]
  | .token => Json.obj [("Token", Json.null)]
  | .x86amx => Json.obj [("Token", Json.null)]
  | .x86mmx => Json.obj [("Token", Json.null)]
  | .metadata => Json.obj [("Metadata", Json.null)]
termination_by t => (sizeOf t, 0)

/-- `serialize_type_array`: `{element, length}`. -/
def serialize_type_array (element : LType) (length : Nat) : Json :=
  Json.obj [("element", serialize_type element), ("length", Json.num length)]
termination_by (sizeOf element, 1)

/-- `serialize_type_struct`: optional `name`, `fields` only when the struct
has a body. -/
def serialize_type_struct (name : Option String) (fields : Option (List LType)) : Json :=
  Json.obj
    ((match name with
      | some n => [("name", Json.str n)]
      | none => []) ++
     (match fields with
      | some fs => [("fields", Json.arr (serialize_type_list fs))]
      | none => []))
termination_by (sizeOf fields, 1)

/-- `serialize_type_function`: `{params, variadic, ret}`. -/
def serialize_type_function (params : List LType) (variadic : Bool) (ret : LType) : Json :=
  Json.obj
    [("params", Json.arr (serialize_type_list params)),
     ("variadic", Json.bool variadic),
     ("ret", serialize_type ret)]
termination_by (1 + sizeOf params + sizeOf ret, 0)

/-- `serialize_type_vector`: `{element, fixed, length}`. -/
def serialize_type_vector (element : LType) (fixedKind : Bool) (length : Nat) : Json :=
  Json.obj
    [("element", serialize_type element),
     ("fixed", Json.bool fixedKind),
     ("length", Json.num length)]
termination_by (sizeOf element, 1)

/-- `serialize_type_extension`: `{name, params}`. -/
def serialize_type_extension (name : String) (params : List LType) : Json :=
  Json.obj [("name", Json.str name), ("params", Json.arr (serialize_type_list params))]
termination_by (sizeOf params, 1)

/-- `serialize_type_typed_pointer`: `{pointee, address_space}`. -/
def serialize_type_typed_pointer (pointee : LType) (addressSpace : Nat) : Json :=
  Json.obj
    [("pointee", serialize_type pointee),
     ("address_space", Json.num addressSpace)]
termination_by (sizeOf pointee, 1)

/-- Element-wise serialization of a list of types (the `for` loops pushing
`serialize_type` results into a `json::Array`). -/
def serialize_type_list : List LType → List Json
  | [] => []
  | t :: ts => serialize_type t :: serialize_type_list ts
termination_by l => (sizeOf l, 0)

end

/-! ## Enumerations shared by the instruction serializer -/

/-- Atomic memory orderings (`llvm::AtomicOrdering`). -/
inductive LOrdering where
  | notAtomic
  | unordered
  | monotonic
  | acquire
  | release
  | acqRel
  | seqCst
deriving Repr, DecidableEq

/-- `llvm::toIRString(AtomicOrdering)`: the canonical textual form used by
the serializer for every ordering field. -/
def toIRString : LOrdering → String
  | .notAtomic => "not_atomic"
  | .unordered => "unordered"
  | .monotonic => "monotonic"
  | .acquire => "acquire"
  | .release => "release"
  | .acqRel => "acq_rel"
  | .seqCst => "seq_cst"

/-- `llvm::SyncScope::SingleThread`. -/
def SyncScope_SingleThread : Nat := 0

/-- `llvm::SyncScope::System`. -/
def SyncScope_System : Nat := 1

/-- `get_sync_scope_name` from `SerializeInstruction.cpp`: `System` maps to
"system", `SingleThread` to "thread", anything else to "unknown". -/
def get_sync_scope_name (scope : Nat) : String :=
  if scope = SyncScope_System then "system"
  else if scope = SyncScope_SingleThread then "thread"
  else "unknown"

/-- Binary opcodes (`Instruction::BinaryOps`), one per case of
`serialize_inst_binary_operator`. -/
inductive LBinOp where
  | add | fadd | sub | fsub | mul | fmul | udiv | sdiv | fdiv
  | urem | srem | frem | shl | lshr | ashr | land | lor | lxor
deriving Repr, DecidableEq

/-- The opcode strings of `serialize_inst_binary_operator`. -/
def binop_opcode : LBinOp → String
  | .add => "add"
  | .fadd => "fadd"
  | .sub => "sub"
  | .fsub => "fsub"
  | .mul => "mul"
  | .fmul => "fmul"
  | .udiv => "udiv"
  | .sdiv => "sdiv"
  | .fdiv => "fdiv"
  | .urem => "urem"
  | .srem => "srem"
  | .frem => "frem"
  | .shl => "shl"
  | .lshr => "lshr"
  | .ashr => "ashr"
  | .land => "and"
  | .lor => "or"
  | .lxor => "xor"

/-- Comparison predicates (`CmpInst::Predicate`); the two `BAD_*` sentinels
are modelled because the serializer has a fatal branch for them. -/
inductive LPred where
  | fFalse | fOeq | fOgt | fOge | fOlt | fOle | fOne | fOrd
  | fUno | fUeq | fUgt | fUge | fUlt | fUle | fUne | fTrue
  | iEq | iNe | iUgt | iUge | iUlt | iUle | iSgt | iSge | iSlt | iSle
  | badFcmp | badIcmp
deriving Repr, DecidableEq

/-- The predicate strings of `serialize_inst_compare` (two-letter-family
form); `none` on the `BAD_*` sentinels, which are fatal. -/
def predicate_name : LPred → Option String
  | .fFalse => some "f_false"
  | .fOeq => some "f_oeq"
  | .fOgt => some "f_ogt"
  | .fOge => some "f_oge"
  | .fOlt => some "f_olt"
  | .fOle => some "f_ole"
  | .fOne => some "f_one"
  | .fOrd => some "f_ord"
  | .fUno => some "f_uno"
  | .fUeq => some "f_ueq"
  | .fUgt => some "f_ugt"
  | .fUge => some "f_uge"
  | .fUlt => some "f_ult"
  | .fUle => some "f_ule"
  | .fUne => some "f_une"
  | .fTrue => some "f_true"
  | .iEq => some "i_eq"
  | .iNe => some "i_ne"
  | .iUgt => some "i_ugt"
  | .iUge => some "i_uge"
  | .iUlt => some "i_ult"
  | .iUle => some "i_ule"
  | .iSgt => some "i_sgt"
  | .iSge => some "i_sge"
  | .iSlt => some "i_slt"
  | .iSle => some "i_sle"
  | .badFcmp => none
  | .badIcmp => none

/-- Cast opcodes (`Instruction::CastOps`).  `ptrToInt`, `intToPtr` and
`addrSpaceCast` carry the address spaces that the serializer reads off the
pointer operands (`getPointerAddressSpace` / `getAddressSpace` /
`getSrcAddressSpace` + `getDestAddressSpace`). -/
inductive LCastOp where
  | trunc
  | zext
  | sext
  | fpToUi
  | fpToSi
  | uiToFp
  | siToFp
  | fpTrunc
  | fpExt
  | ptrToInt (srcAddressSpace : Nat)
  | intToPtr (dstAddressSpace : Nat)
  | bitcast
  | addrSpaceCast (srcAddressSpace dstAddressSpace : Nat)
deriving Repr, DecidableEq

/-- Atomic-RMW operations (`AtomicRMWInst::BinOp`), with the `BAD_BINOP`
sentinel, which is fatal. -/
inductive LRMWOp where
  | xchg | add | fadd | sub | fsub | uincWrap | udecWrap
  | max | umax | fmax | min | umin | fmin
  | land | lor | lxor | nand | badBinop
deriving Repr, DecidableEq

/-- The opcode strings of `serialize_inst_atomic_rmw`; `none` on
`BAD_BINOP`. -/
def rmw_opcode : LRMWOp → Option String
  | .xchg => some "xchg"
  | .add => some "add"
  | .fadd => some "fadd"
  | .sub => some "sub"
  | .fsub => some "fsub"
  | .uincWrap => some "uinc"
  | .udecWrap => some "udec"
  | .max => some "max"
  | .umax => some "umax"
  | .fmax => some "fmax"
  | .min => some "min"
  | .umin => some "umin"
  | .fmin => some "fmin"
  | .land => some "and"
  | .lor => some "or"
  | .lxor => some "xor"
  | .nand => some "nand"
  | .badBinop => none

/-! ## Input-side entities -/

/-- An `llvm::InlineAsm` value: its function signature plus the template and
constraint strings. -/
structure LInlineAsm where
  sigParams : List LType
  sigVariadic : Bool
  sigRet : LType
  asmString : String
  constraintString : String
deriving Repr

/-- An `llvm::Argument`.  The `id` stands for the pointer identity; the
attribute fields model the parameter attributes LLVM can attach (`byval`,
`byref`, `preallocated`, `sret`, `inalloca`), each carrying the type the
attribute refers to. -/
structure LArgument where
  id : Nat
  name : Option String
  ty : LType
  byval : Option LType := none
  byref : Option LType := none
  preallocated : Option LType := none
  sret : Option LType := none
  inalloca : Option LType := none
deriving Repr

/-! Constants, values and instructions of the IR value DAG.  `Nat` fields
named `...Id` stand for pointer identities. -/

mutual

/-- An `llvm::Constant` together with its type (`val.getType()`). -/
inductive LConstant where
  | mk (ty : LType) (cv : LConstVal)

/-- The constant flavors distinguished by `serialize_const`. -/
inductive LConstVal where
  | cint (value : Nat)
  | cfloat (value : String)
  | cnull
  | cnone
  | cextNone
  | cundef
  | cdefault
  | cdataArray (elements : List LConstant)
  | cdataVector (elements : List LConstant)
  | cpackArray (elements : List LConstant)
  | cpackStruct (elements : List LConstant)
  | cpackVector (elements : List LConstant)
  | cvar (name : Option String)
  | cfunc (name : Option String)
  | calias (name : Option String)
  | cifunc (name : Option String)
  | cblockAddr (funcId : Nat) (funcName : Option String) (blockId : Nat)
  | cmarkerDSOLocal (wrapped : LConstant)
  | cmarkerNoCFI (wrapped : LConstant)
  | cexpr (inst : LInst)

/-- An `llvm::Value` as dispatched by `serialize_value`.  The last three
constructors are the kinds with fatal branches. -/
inductive LValue where
  | argument (ty : LType) (argId : Nat)
  | constant (c : LConstant)
  | instRef (ty : LType) (instId : Nat)
  | blockRef (funcId : Nat) (funcName : Option String) (blockId : Nat)
  | metadataVal
  | inlineAsmVal
  | operatorVal
  | memorySSAVal

/-- An `llvm::Instruction`: identity, optional SSA name, result type and
opcode payload. -/
inductive LInst where
  | mk (id : Nat) (name : Option String) (ty : LType) (kind : LInstKind)

/-- One constructor per concrete instruction case of `serialize_inst`
(`SerializeInstruction.cpp`). -/
inductive LInstKind where
  | alloca (allocatedType : LType) (size : Option LValue) (addressSpace : Nat)
  | load (pointer : LValue) (ordering : LOrdering) (addressSpace : Nat)
  | store (pointer : LValue) (value : LValue) (ordering : LOrdering) (addressSpace : Nat)
  | vaArg (pointer : LValue)
  | callAsm (asmCallee : LInlineAsm) (args : List LValue)
  | callDirect (callee : LValue) (targetType : LType) (args : List LValue)
  | callIndirect (callee : LValue) (targetType : LType) (args : List LValue)
  | callIntrinsic (intrinsicId : Nat) (callee : LValue) (targetType : LType) (args : List LValue)
  | unop (operand : LValue)
  | binop (opcode : LBinOp) (lhs rhs : LValue)
  | compare (predicate : LPred) (lhs rhs : LValue)
  | castop (opcode : LCastOp) (srcTy dstTy : LType) (operand : LValue)
  | freeze (operand : LValue)
  | gep (srcPointeeTy dstPointeeTy : LType) (pointer : LValue) (indices : List LValue)
      (addressSpace : Nat)
  | phi (incoming : List (Nat × LValue))
  | ite (cond thenValue elseValue : LValue)
  | getValue (aggregate : LValue) (indices : List Nat)
  | setValue (aggregate value : LValue) (indices : List Nat)
  | getElement (vector slot : LValue)
  | setElement (vector value slot : LValue)
  | shuffleVector (lhs rhs : LValue) (mask : List Int)
  | fence (ordering : LOrdering) (scope : Nat)
  | atomicCmpXchg (pointer valueCmp valueXchg : LValue) (addressSpace : Nat)
      (orderingSuccess orderingFailure : LOrdering) (scope : Nat)
  | atomicRMW (operation : LRMWOp) (pointer value : LValue) (addressSpace : Nat)
      (ordering : LOrdering) (scope : Nat)
  | landingPad (clauses : List LConstant) (isCleanup : Bool)
  | catchPad
  | cleanupPad
  | ret (value : Option LValue)
  | br (cond : Option LValue) (targets : List Nat)
  | switch (cond : LValue) (cases : List (LConstant × Nat)) (defaultBlock : Nat)
  | indirectJump (address : LValue) (targets : List Nat)
  | invokeAsm (asmCallee : LInlineAsm) (args : List LValue) (normal unwind : Nat)
  | invokeDirect (callee : LValue) (targetType : LType) (args : List LValue) (normal unwind : Nat)
  | invokeIndirect (callee : LValue) (targetType : LType) (args : List LValue) (normal unwind : Nat)
  | resume (value : LValue)
  | unreachable
  | catchSwitch
  | catchRet
  | cleanupRet
  | callBr

end

/-- Identity of an instruction (its address in the C++ code). -/
def LInst.instId : LInst → Nat
  | .mk i _ _ _ => i

/-- `inst.hasName() / inst.getName()`. -/
def LInst.instName : LInst → Option String
  | .mk _ n _ _ => n

/-- `inst.getType()`. -/
def LInst.ty : LInst → LType
  | .mk _ _ t _ => t

/-- The opcode payload of an instruction. -/
def LInst.kind : LInst → LInstKind
  | .mk _ _ _ k => k

/-- `val.getType()` for the value kinds the serializer reads a type from.
Basic blocks have `label` type and metadata-as-value has `metadata` type;
inline asm has pointer type; the remaining fatal kinds are never queried. -/
def LValue.vty : LValue → LType
  | .argument ty _ => ty
  | .constant (.mk ty _) => ty
  | .instRef ty _ => ty
  | .blockRef _ _ _ => .label
  | .metadataVal => .metadata
  | .inlineAsmVal => .pointer 0
  | .operatorVal => .void
  | .memorySSAVal => .void

/-! ## Function-scoped labeling context (`Serializer.h` / `Serializer.cpp`) -/

/-- `FunctionSerializationContext`: three independent `std::map`s from
pointer identity to dense label. -/
structure FunctionSerializationContext where
  block_labels : List (Nat × Nat) := []
  inst_labels : List (Nat × Nat) := []
  arg_labels : List (Nat × Nat) := []
deriving Repr, DecidableEq

namespace FunctionSerializationContext

/-- `add_block`: label = current map size; `emplace` returning `false`
(key already present) fails the assertion, modelled as `none`. -/
def add_block (ctx : FunctionSerializationContext) (block : Nat) :
    Option FunctionSerializationContext :=
  match ctx.block_labels.lookup block with
  | some _ => none
  | none =>
    some { ctx with block_labels := ctx.block_labels ++ [(block, ctx.block_labels.length)] }

/-- `add_instruction`, same shape as `add_block`. -/
def add_instruction (ctx : FunctionSerializationContext) (inst : Nat) :
    Option FunctionSerializationContext :=
  match ctx.inst_labels.lookup inst with
  | some _ => none
  | none =>
    some { ctx with inst_labels := ctx.inst_labels ++ [(inst, ctx.inst_labels.length)] }

/-- `add_argument`, same shape as `add_block`. -/
def add_argument (ctx : FunctionSerializationContext) (arg : Nat) :
    Option FunctionSerializationContext :=
  match ctx.arg_labels.lookup arg with
  | some _ => none
  | none =>
    some { ctx with arg_labels := ctx.arg_labels ++ [(arg, ctx.arg_labels.length)] }

/-- `get_block`: `std::map::at`, `none` models the missing-key defect. -/
def get_block (ctx : FunctionSerializationContext) (block : Nat) : Option Nat :=
  ctx.block_labels.lookup block

/-- `get_instruction`. -/
def get_instruction (ctx : FunctionSerializationContext) (inst : Nat) : Option Nat :=
  ctx.inst_labels.lookup inst

/-- `get_argument`. -/
def get_argument (ctx : FunctionSerializationContext) (arg : Nat) : Option Nat :=
  ctx.arg_labels.lookup arg

end FunctionSerializationContext

/-- The process-wide `std::map<const Function *, FunctionSerializationContext>
contexts`, keyed by function identity. -/
abbrev Contexts := List (Nat × FunctionSerializationContext)

/-! ## Blocks, functions, globals, modules -/

/-- An `llvm::BasicBlock`: the terminator is the last instruction of the
block's list and is modelled separately (`getTerminator`). -/
structure LBlock where
  id : Nat
  name : Option String
  body : List LInst
  term : LInst

/-- An `llvm::Function`. -/
structure LFunction where
  id : Nat
  name : Option String
  intrinsicId : Nat
  ftype : LType
  isDeclaration : Bool
  isDefinitionExact : Bool
  args : List LArgument
  blocks : List LBlock

/-- An `llvm::GlobalVariable`. -/
structure LGlobalVariable where
  name : Option String
  valueType : LType
  isExternallyInitialized : Bool
  isConst : Bool
  isDeclaration : Bool
  isDefinitionExact : Bool
  isThreadLocal : Bool
  addressSpace : Nat
  initializer : Option LConstant

/-- An `llvm::Module`. -/
structure LModule where
  moduleIdentifier : String
  moduleInlineAsm : String
  identifiedStructTypes : List (Option String × Option (List LType))
  globals : List LGlobalVariable
  functions : List LFunction

/-! ## Metadata probes (`Metadata.cpp`, latest iteration) -/

/-- `llvm::Intrinsic::not_intrinsic` (id 0). -/
def Intrinsic_not_intrinsic : Nat := 0

/-- Debug-info intrinsic ids (`dbg_declare`, `dbg_value`, `dbg_label`,
`dbg_assign`).  The concrete numbers are stand-ins for the tablegen-assigned
LLVM ids; only their distinctness from `not_intrinsic` and membership below
matter. -/
def Intrinsic_dbg_declare : Nat := 101
def Intrinsic_dbg_value : Nat := 102
def Intrinsic_dbg_label : Nat := 103
def Intrinsic_dbg_assign : Nat := 104

/-- `llvm::isDbgInfoIntrinsic`: membership in the debug-info intrinsic
family. -/
def isDbgInfoIntrinsic (id : Nat) : Bool :=
  [Intrinsic_dbg_declare, Intrinsic_dbg_value, Intrinsic_dbg_label,
   Intrinsic_dbg_assign].contains id

/-- `Function::isIntrinsic()`: the intrinsic id is assigned. -/
def LFunction.isIntrinsic (func : LFunction) : Bool :=
  func.intrinsicId != Intrinsic_not_intrinsic

/-- `is_debug_function`: intrinsic id assigned and in the debug-info
family. -/
def is_debug_function (func : LFunction) : Bool :=
  func.intrinsicId != Intrinsic_not_intrinsic && isDbgInfoIntrinsic func.intrinsicId

/-- `is_debug_instruction`: an intrinsic call whose id is in the debug-info
family. -/
def is_debug_instruction (inst : LInst) : Bool :=
  match inst.kind with
  | .callIntrinsic iid _ _ _ => isDbgInfoIntrinsic iid
  | _ => false

/-- `is_intrinsic_function`: intrinsic id check combined with the `llvm.`
name heuristic. -/
def is_intrinsic_function (func : LFunction) : Bool :=
  if func.isIntrinsic then true
  else if func.intrinsicId != Intrinsic_not_intrinsic then true
  else
    match func.name with
    | some n => n.startsWith "llvm."
    | none => false

/-! ## Non-recursive serializer helpers -/

/-- `serialize_inline_asm` (latest iteration): signature, template and
constraint string. -/
def serialize_inline_asm (assembly : LInlineAsm) : Json :=
  Json.obj
    [("signature", serialize_type_function assembly.sigParams assembly.sigVariadic assembly.sigRet),
     ("asm", Json.str assembly.asmString),
     ("constraint", Json.str assembly.constraintString)]

/-- `serialize_const_data_int`: unsigned decimal rendering of the `APInt`. -/
def serialize_const_data_int (value : Nat) : Json :=
  Json.obj [("value", Json.str (Nat.repr value))]

/-- `serialize_const_data_float`: textual rendering of the `APFloat`. -/
def serialize_const_data_float (value : String) : Json :=
  Json.obj [("value", Json.str value)]

/-- `serialize_const_ref_global` (anonymous namespace): name only when
present. -/
def serialize_const_ref_global (name : Option String) : Json :=
  Json.obj
    (match name with
     | some n => [("name", Json.str n)]
     | none => [])

/-- `serialize_const_ref_global_variable`. -/
def serialize_const_ref_global_variable (name : Option String) : Json :=
  serialize_const_ref_global name

/-- `serialize_const_ref_function`. -/
def serialize_const_ref_function (name : Option String) : Json :=
  serialize_const_ref_global name

/-- `serialize_const_ref_global_alias`. -/
def serialize_const_ref_global_alias (name : Option String) : Json :=
  serialize_const_ref_global name

/-- `serialize_const_ref_interface`. -/
def serialize_const_ref_interface (name : Option String) : Json :=
  serialize_const_ref_global name

/-- `serialize_block_address` (`SerializeConstant.cpp`): unnamed owning
function and unregistered context are fatal; then the block label comes from
the owning function's context. -/
def serialize_block_address (ctxs : Contexts) (funcId : Nat) (funcName : Option String)
    (blockId : Nat) : Except String Json :=
  match funcName with
  | none => .error "block address referring to an unnamed function"
  | some n =>
    match ctxs.lookup funcId with
    | none => .error "function context not ready"
    | some ctxt =>
      match ctxt.get_block blockId with
      | some l => .ok (Json.obj [("func", Json.str n), ("block", Json.num l)])
      | none => .error "missing block label"

/-- `FunctionSerializationContext::serialize_value_block`
(`SerializeValue.cpp`): same checks as `serialize_block_address`. -/
def serialize_value_block (ctxs : Contexts) (funcId : Nat) (funcName : Option String)
    (blockId : Nat) : Except String Json :=
  match funcName with
  | none => .error "block address referring to an unnamed function"
  | some n =>
    match ctxs.lookup funcId with
    | none => .error "function context not ready"
    | some ctxt =>
      match ctxt.get_block blockId with
      | some l => .ok (Json.obj [("func", Json.str n), ("block", Json.num l)])
      | none => .error "missing block label"

/-- `serialize_value_argument`: type plus the argument label
(`std::map::at`). -/
def serialize_value_argument (ctx : FunctionSerializationContext) (ty : LType)
    (argId : Nat) : Except String Json :=
  match ctx.get_argument argId with
  | some index => .ok (Json.obj [("ty", serialize_type ty), ("index", Json.num index)])
  | none => .error "missing argument label"

/-- `serialize_value_instruction`: type plus the instruction label. -/
def serialize_value_instruction (ctx : FunctionSerializationContext) (ty : LType)
    (instId : Nat) : Except String Json :=
  match ctx.get_instruction instId with
  | some index => .ok (Json.obj [("ty", serialize_type ty), ("index", Json.num index)])
  | none => .error "missing instruction label"

/-- `get_block` lifted through the `std::map::at` missing-key defect. -/
def FunctionSerializationContext.get_block_at (ctx : FunctionSerializationContext)
    (block : Nat) : Except String Nat :=
  match ctx.get_block block with
  | some l => .ok l
  | none => .error "missing block label"

/-- `get_instruction` lifted through the `std::map::at` missing-key
defect. -/
def FunctionSerializationContext.get_instruction_at (ctx : FunctionSerializationContext)
    (inst : Nat) : Except String Nat :=
  match ctx.get_instruction inst with
  | some l => .ok l
  | none => .error "missing instruction label"

/-- The successor-label loops of `Branch` / `IndirectJump`. -/
def get_block_targets (ctx : FunctionSerializationContext) :
    List Nat → Except String (List Json)
  | [] => .ok []
  | b :: rest => do
    let l ← ctx.get_block_at b
    let ls ← get_block_targets ctx rest
    .ok (Json.num l :: ls)

/-- `serialize_inst_fence`: ordering and sync scope. -/
def serialize_inst_fence (ordering : LOrdering) (scope : Nat) : Json :=
  Json.obj
    [("ordering", Json.str (toIRString ordering)),
     ("scope", Json.str (get_sync_scope_name scope))]

/-- `SwitchInst::DefaultPseudoIndex` (`UINT32_MAX`): the case index reported
by the default-case handle. -/
def DefaultPseudoIndex : Nat := 2 ^ 32 - 1

/-! ## The mutually recursive serializer core
(`SerializeConstant.cpp`, `SerializeValue.cpp`, `SerializeInstruction.cpp`) -/

set_option maxHeartbeats 4000000 in
mutual

/-- `serialize_constant`: `{ty, repr}` envelope. -/
def serialize_constant (ctxs : Contexts) : LConstant → Except String Json
  | .mk ty cv => do
    let repr ← serialize_const ctxs (.mk ty cv)
    .ok (Json.obj [("ty", serialize_type ty), ("repr", repr)])
termination_by c => (sizeOf c, 0, 3)

/-- `serialize_const`: the exhaustive dispatch over constant flavors. -/
def serialize_const (ctxs : Contexts) : LConstant → Except String Json
  | .mk _ cv =>
    match cv with
    | .cmarkerDSOLocal w => do
      let m ← serialize_const_marker ctxs w
      .ok (Json.obj [("Marker", m)])
    | .cmarkerNoCFI w => do
      let m ← serialize_const_marker ctxs w
      .ok (Json.obj [("Marker", m)])
    | .cint v => .ok (Json.obj [("Int", serialize_const_data_int v)])
    | .cfloat v => .ok (Json.obj [("Float", serialize_const_data_float v)])
    | .cnull => .ok (Json.obj [("Null", Json.null)])
    | .cnone => .ok (Json.obj [("None", Json.null)])
    | .cextNone => .ok (Json.obj [("Extension", Json.null)])
    | .cundef => .ok (Json.obj [("Undef", Json.null)])
    | .cdefault => .ok (Json.obj [("Default", Json.null)])
    | .cdataVector es => do
      let p ← serialize_const_data_vector ctxs es
      .ok (Json.obj [("Vector", p)])
    | .cdataArray es => do
      let p ← serialize_const_data_array ctxs es
      .ok (Json.obj [("Array", p)])
    | .cpackVector es => do
      let p ← serialize_const_pack_vector ctxs es
      .ok (Json.obj [("Vector", p)])
    | .cpackArray es => do
      let p ← serialize_const_pack_array ctxs es
      .ok (Json.obj [("Array", p)])
    | .cpackStruct es => do
      let p ← serialize_const_pack_struct ctxs es
      .ok (Json.obj [("Struct", p)])
    | .cvar n => .ok (Json.obj [("Variable", serialize_const_ref_global_variable n)])
    | .cfunc n => .ok (Json.obj [("Function", serialize_const_ref_function n)])
    | .calias n => .ok (Json.obj [("Alias", serialize_const_ref_global_alias n)])
    | .cifunc n => .ok (Json.obj [("Interface", serialize_const_ref_interface n)])
    | .cblockAddr fid fn bid => do
      let p ← serialize_block_address ctxs fid fn bid
      .ok (Json.obj [("Label", p)])
    | .cexpr inst => do
      let p ← serialize_const_expr ctxs inst
      .ok (Json.obj [("Expr", p)])
termination_by c => (sizeOf c, 0, 2)

/-- `serialize_const_data_sequence` (anonymous namespace): `{elements}`. -/
def serialize_const_data_sequence (ctxs : Contexts) (elements : List LConstant) :
    Except String Json := do
  let es ← serialize_constant_list ctxs elements
  .ok (Json.obj [("elements", Json.arr es)])
termination_by (sizeOf elements, 0, 6)

/-- `serialize_const_pack_aggregate` (anonymous namespace): `{elements}`. -/
def serialize_const_pack_aggregate (ctxs : Contexts) (elements : List LConstant) :
    Except String Json := do
  let es ← serialize_constant_list ctxs elements
  .ok (Json.obj [("elements", Json.arr es)])
termination_by (sizeOf elements, 0, 6)

/-- `serialize_const_data_array`. -/
def serialize_const_data_array (ctxs : Contexts) (elements : List LConstant) :
    Except String Json :=
  serialize_const_data_sequence ctxs elements
termination_by (sizeOf elements, 0, 7)

/-- `serialize_const_data_vector`. -/
def serialize_const_data_vector (ctxs : Contexts) (elements : List LConstant) :
    Except String Json :=
  serialize_const_data_sequence ctxs elements
termination_by (sizeOf elements, 0, 7)

/-- `serialize_const_pack_array`. -/
def serialize_const_pack_array (ctxs : Contexts) (elements : List LConstant) :
    Except String Json :=
  serialize_const_pack_aggregate ctxs elements
termination_by (sizeOf elements, 0, 7)

/-- `serialize_const_pack_struct`. -/
def serialize_const_pack_struct (ctxs : Contexts) (elements : List LConstant) :
    Except String Json :=
  serialize_const_pack_aggregate ctxs elements
termination_by (sizeOf elements, 0, 7)

/-- `serialize_const_pack_vector`. -/
def serialize_const_pack_vector (ctxs : Contexts) (elements : List LConstant) :
    Except String Json :=
  serialize_const_pack_aggregate ctxs elements
termination_by (sizeOf elements, 0, 7)

/-- `serialize_const_marker`: `{wrap: <constant>}` around the wrapped global
value. -/
def serialize_const_marker (ctxs : Contexts) (wrapped : LConstant) :
    Except String Json := do
  let w ← serialize_constant ctxs wrapped
  .ok (Json.obj [("wrap", w)])
termination_by (sizeOf wrapped, 0, 4)

/-- `serialize_const_expr`: the materialized pseudo-instruction is serialized
through `serialize_inst` with a throwaway (empty) context. -/
def serialize_const_expr (ctxs : Contexts) (inst : LInst) : Except String Json := do
  let p ← serialize_inst ctxs {} inst
  .ok (Json.obj [("inst", p)])
termination_by (sizeOf inst, 0, 4)

/-- The element loops pushing `serialize_constant` results. -/
def serialize_constant_list (ctxs : Contexts) : List LConstant → Except String (List Json)
  | [] => .ok []
  | c :: cs => do
    let j ← serialize_constant ctxs c
    let js ← serialize_constant_list ctxs cs
    .ok (j :: js)
termination_by l => (sizeOf l, 0, 5)

/-- `FunctionSerializationContext::serialize_value`: dispatch over value
kinds; inline asm, operator and memory-SSA occurrences are fatal. -/
def serialize_value (ctxs : Contexts) (ctx : FunctionSerializationContext) :
    LValue → Except String Json
  | .argument ty aid => do
    let p ← serialize_value_argument ctx ty aid
    .ok (Json.obj [("Argument", p)])
  | .constant c => do
    let p ← serialize_constant ctxs c
    .ok (Json.obj [("Constant", p)])
  | .instRef ty iid => do
    let p ← serialize_value_instruction ctx ty iid
    .ok (Json.obj [("Instruction", p)])
  | .blockRef fid fn bid => do
    let p ← serialize_value_block ctxs fid fn bid
    .ok (Json.obj [("Label", p)])
  | .metadataVal => .ok (Json.obj [("Metadata", Json.null)])
  | .inlineAsmVal => .error "unexpected asm as value"
  | .operatorVal => .error "unexpected operator as value"
  | .memorySSAVal => .error "unexpected memory SSA as value"
termination_by v => (sizeOf v, 0, 1)

/-- The argument loops pushing `serialize_value` results. -/
def serialize_value_list (ctxs : Contexts) (ctx : FunctionSerializationContext) :
    List LValue → Except String (List Json)
  | [] => .ok []
  | v :: vs => do
    let j ← serialize_value ctxs ctx v
    let js ← serialize_value_list ctxs ctx vs
    .ok (j :: js)
termination_by l => (sizeOf l, 0, 0)

/-- `FunctionSerializationContext::serialize_inst`: the exhaustive dispatch
over concrete instruction kinds. -/
def serialize_inst (ctxs : Contexts) (ctx : FunctionSerializationContext) :
    LInst → Except String Json
  | .mk _ _ ty kind =>
    match kind with
    | .alloca allocatedType size addressSpace => do
      let p ← serialize_inst_alloca ctxs ctx allocatedType size addressSpace
      .ok (Json.obj [("Alloca", p)])
    | .load pointer ordering addressSpace => do
      let p ← serialize_inst_load ctxs ctx ty pointer ordering addressSpace
      .ok (Json.obj [("Load", p)])
    | .store pointer value ordering addressSpace => do
      let p ← serialize_inst_store ctxs ctx pointer value ordering addressSpace
      .ok (Json.obj [("Store", p)])
    | .vaArg pointer => do
      let p ← serialize_inst_va_arg ctxs ctx pointer
      .ok (Json.obj [("VAArg", p)])
    | .callIntrinsic _ callee targetType args => do
      let p ← serialize_inst_call_intrinsic ctxs ctx callee targetType args
      .ok (Json.obj [("Intrinsic", p)])
    | .callAsm asmCallee args => do
      let p ← serialize_inst_call_asm ctxs ctx asmCallee args
      .ok (Json.obj [("CallAsm", p)])
    | .callDirect callee targetType args => do
      let p ← serialize_inst_call_direct ctxs ctx callee targetType args
      .ok (Json.obj [("CallDirect", p)])
    | .callIndirect callee targetType args => do
      let p ← serialize_inst_call_indirect ctxs ctx callee targetType args
      .ok (Json.obj [("CallIndirect", p)])
    | .unop operand => do
      let p ← serialize_inst_unary_operator ctxs ctx operand
      .ok (Json.obj [("Unary", p)])
    | .binop opcode lhs rhs => do
      let p ← serialize_inst_binary_operator ctxs ctx opcode lhs rhs
      .ok (Json.obj [("Binary", p)])
    | .compare predicate lhs rhs => do
      let p ← serialize_inst_compare ctxs ctx predicate lhs rhs
      .ok (Json.obj [("Compare", p)])
    | .castop opcode srcTy dstTy operand => do
      let p ← serialize_inst_cast ctxs ctx opcode srcTy dstTy operand
      .ok (Json.obj [("Cast", p)])
    | .freeze operand => do
      let p ← serialize_inst_freeze ctxs ctx operand
      .ok (Json.obj [("Freeze", p)])
    | .gep srcPointeeTy dstPointeeTy pointer indices addressSpace => do
      let p ← serialize_inst_gep ctxs ctx srcPointeeTy dstPointeeTy pointer indices addressSpace
      .ok (Json.obj [("GEP", p)])
    | .phi incoming => do
      let p ← serialize_inst_phi ctxs ctx incoming
      .ok (Json.obj [("Phi", p)])
    | .ite cond thenValue elseValue => do
      let p ← serialize_inst_ite ctxs ctx cond thenValue elseValue
      .ok (Json.obj [("ITE", p)])
    | .getValue aggregate indices => do
      let p ← serialize_inst_get_value ctxs ctx aggregate indices
      .ok (Json.obj [("GetValue", p)])
    | .setValue aggregate value indices => do
      let p ← serialize_inst_set_value ctxs ctx aggregate value indices
      .ok (Json.obj [("SetValue", p)])
    | .getElement vector slot => do
      let p ← serialize_inst_get_element ctxs ctx vector slot
      .ok (Json.obj [("GetElement", p)])
    | .setElement vector value slot => do
      let p ← serialize_inst_set_element ctxs ctx vector value slot
      .ok (Json.obj [("SetElement", p)])
    | .shuffleVector lhs rhs mask => do
      let p ← serialize_inst_shuffle_vector ctxs ctx lhs rhs mask
      .ok (Json.obj [("ShuffleVector", p)])
    | .fence ordering scope =>
      .ok (Json.obj [("Fence", serialize_inst_fence ordering scope)])
    | .atomicCmpXchg pointer valueCmp valueXchg addressSpace os of sc => do
      let p ← serialize_inst_atomic_cmpxchg ctxs ctx ty pointer valueCmp valueXchg
        addressSpace os of sc
      .ok (Json.obj [("AtomicCmpXchg", p)])
    | .atomicRMW operation pointer value addressSpace ordering scope => do
      let p ← serialize_inst_atomic_rmw ctxs ctx ty operation pointer value
        addressSpace ordering scope
      .ok (Json.obj [("AtomicRMW", p)])
    | .landingPad clauses isCleanup => do
      let p ← serialize_inst_landing_pad ctxs ctx clauses isCleanup
      .ok (Json.obj [("LandingPad", p)])
    | .catchPad => .ok (Json.obj [("CatchPad", Json.null)])
    | .cleanupPad => .ok (Json.obj [("CleanupPad", Json.null)])
    | .ret value => do
      let p ← serialize_inst_return ctxs ctx value
      .ok (Json.obj [("Return", p)])
    | .br cond targets => do
      let p ← serialize_inst_branch ctxs ctx cond targets
      .ok (Json.obj [("Branch", p)])
    | .switch cond cases defaultBlock => do
      let p ← serialize_inst_switch ctxs ctx cond cases defaultBlock
      .ok (Json.obj [("Switch", p)])
    | .indirectJump address targets => do
      let p ← serialize_inst_jump_indirect ctxs ctx address targets
      .ok (Json.obj [("IndirectJump", p)])
    | .invokeAsm asmCallee args normal unwind => do
      let p ← serialize_inst_invoke_asm ctxs ctx asmCallee args normal unwind
      .ok (Json.obj [("InvokeAsm", p)])
    | .invokeDirect callee targetType args normal unwind => do
      let p ← serialize_inst_invoke_direct ctxs ctx callee targetType args normal unwind
      .ok (Json.obj [("InvokeDirect", p)])
    | .invokeIndirect callee targetType args normal unwind => do
      let p ← serialize_inst_invoke_indirect ctxs ctx callee targetType args normal unwind
      .ok (Json.obj [("InvokeIndirect", p)])
    | .resume value => do
      let p ← serialize_inst_resume ctxs ctx value
      .ok (Json.obj [("Resume", p)])
    | .unreachable => .ok (Json.obj [("Unreachable", Json.null)])
    | .catchSwitch => .ok (Json.obj [("CatchSwitch", Json.null)])
    | .catchRet => .ok (Json.obj [("CatchReturn", Json.null)])
    | .cleanupRet => .ok (Json.obj [("CleanupReturn", Json.null)])
    | .callBr => .ok (Json.obj [("CallBranch", Json.null)])
termination_by i => (sizeOf i, 0, 3)

/-- `serialize_inst_alloca`: allocated type, optional array size, address
space. -/
def serialize_inst_alloca (ctxs : Contexts) (ctx : FunctionSerializationContext)
    (allocatedType : LType) (size : Option LValue) (addressSpace : Nat) :
    Except String Json := do
  let sz ← match size with
    | some s => do
      let j ← serialize_value ctxs ctx s
      .ok [("size", j)]
    | none => .ok []
  .ok (Json.obj ([("allocated_type", serialize_type allocatedType)] ++ sz ++
    [("address_space", Json.num addressSpace)]))
termination_by (1 + sizeOf size, 0, 5)

/-- `serialize_inst_load`: the pointee type is the load's own result type. -/
def serialize_inst_load (ctxs : Contexts) (ctx : FunctionSerializationContext)
    (ty : LType) (pointer : LValue) (ordering : LOrdering) (addressSpace : Nat) :
    Except String Json := do
  let p ← serialize_value ctxs ctx pointer
  .ok (Json.obj
    [("pointee_type", serialize_type ty),
     ("pointer", p),
     ("ordering", Json.str (toIRString ordering)),
     ("address_space", Json.num addressSpace)])
termination_by (1 + sizeOf pointer, 0, 5)

/-- `serialize_inst_store`: the pointee type is the stored value's type. -/
def serialize_inst_store (ctxs : Contexts) (ctx : FunctionSerializationContext)
    (pointer : LValue) (value : LValue) (ordering : LOrdering) (addressSpace : Nat) :
    Except String Json := do
  let p ← serialize_value ctxs ctx pointer
  let v ← serialize_value ctxs ctx value
  .ok (Json.obj
    [("pointee_type", serialize_type value.vty),
     ("pointer", p),
     ("value", v),
     ("ordering", Json.str (toIRString ordering)),
     ("address_space", Json.num addressSpace)])
termination_by (1 + sizeOf pointer + sizeOf value, 0, 5)

/-- `serialize_inst_va_arg`. -/
def serialize_inst_va_arg (ctxs : Contexts) (ctx : FunctionSerializationContext)
    (pointer : LValue) : Except String Json := do
  let p ← serialize_value ctxs ctx pointer
  .ok (Json.obj [("pointer", p)])
termination_by (1 + sizeOf pointer, 0, 5)

/-- `serialize_inst_call_asm`: inline-asm callee plus arguments. -/
def serialize_inst_call_asm (ctxs : Contexts) (ctx : FunctionSerializationContext)
    (asmCallee : LInlineAsm) (args : List LValue) : Except String Json := do
  let as ← serialize_value_list ctxs ctx args
  .ok (Json.obj [("asm", serialize_inline_asm asmCallee), ("args", Json.arr as)])
termination_by (1 + sizeOf args, 0, 5)

/-- `serialize_inst_call_direct`: callee, function type, arguments. -/
def serialize_inst_call_direct (ctxs : Contexts) (ctx : FunctionSerializationContext)
    (callee : LValue) (targetType : LType) (args : List LValue) : Except String Json := do
  let c ← serialize_value ctxs ctx callee
  let as ← serialize_value_list ctxs ctx args
  .ok (Json.obj
    [("callee", c), ("target_type", serialize_type targetType), ("args", Json.arr as)])
termination_by (1 + sizeOf callee + sizeOf args, 0, 5)

/-- `serialize_inst_call_indirect`: same payload as a direct call. -/
def serialize_inst_call_indirect (ctxs : Contexts) (ctx : FunctionSerializationContext)
    (callee : LValue) (targetType : LType) (args : List LValue) : Except String Json := do
  let c ← serialize_value ctxs ctx callee
  let as ← serialize_value_list ctxs ctx args
  .ok (Json.obj
    [("callee", c), ("target_type", serialize_type targetType), ("args", Json.arr as)])
termination_by (1 + sizeOf callee + sizeOf args, 0, 5)

/-- `serialize_inst_call_intrinsic`: same payload as a direct call. -/
def serialize_inst_call_intrinsic (ctxs : Contexts) (ctx : FunctionSerializationContext)
    (callee : LValue) (targetType : LType) (args : List LValue) : Except String Json := do
  let c ← serialize_value ctxs ctx callee
  let as ← serialize_value_list ctxs ctx args
  .ok (Json.obj
    [("callee", c), ("target_type", serialize_type targetType), ("args", Json.arr as)])
termination_by (1 + sizeOf callee + sizeOf args, 0, 5)

/-- `serialize_inst_unary_operator`: `fneg` is the only unary opcode. -/
def serialize_inst_unary_operator (ctxs : Contexts) (ctx : FunctionSerializationContext)
    (operand : LValue) : Except String Json := do
  let o ← serialize_value ctxs ctx operand
  .ok (Json.obj [("opcode", Json.str "fneg"), ("operand", o)])
termination_by (1 + sizeOf operand, 0, 5)

/-- `serialize_inst_binary_operator`: opcode string, then both operands. -/
def serialize_inst_binary_operator (ctxs : Contexts) (ctx : FunctionSerializationContext)
    (opcode : LBinOp) (lhs rhs : LValue) : Except String Json := do
  let l ← serialize_value ctxs ctx lhs
  let r ← serialize_value ctxs ctx rhs
  .ok (Json.obj [("opcode", Json.str (binop_opcode opcode)), ("lhs", l), ("rhs", r)])
termination_by (1 + sizeOf lhs + sizeOf rhs, 0, 5)

/-- `serialize_inst_compare`: predicate (fatal on the `BAD_*` sentinels),
operand type, operands. -/
def serialize_inst_compare (ctxs : Contexts) (ctx : FunctionSerializationContext)
    (predicate : LPred) (lhs rhs : LValue) : Except String Json := do
  match predicate_name predicate with
  | none => .error "unexpected bad compare predicate"
  | some pred => do
    let l ← serialize_value ctxs ctx lhs
    let r ← serialize_value ctxs ctx rhs
    .ok (Json.obj
      [("predicate", Json.str pred),
       ("operand_type", serialize_type lhs.vty),
       ("lhs", l), ("rhs", r)])
termination_by (1 + sizeOf lhs + sizeOf rhs, 0, 5)

/-- `serialize_inst_cast`: opcode string, address spaces for the pointer
casts, source/destination types, operand. -/
def serialize_inst_cast (ctxs : Contexts) (ctx : FunctionSerializationContext)
    (opcode : LCastOp) (srcTy dstTy : LType) (operand : LValue) : Except String Json := do
  let opFields : List (String × Json) :=
    match opcode with
    | .trunc => [("opcode", Json.str "trunc")]
    | .zext => [("opcode", Json.str "zext")]
    | .sext => [("opcode", Json.str "sext")]
    | .fpToUi => [("opcode", Json.str "fp_to_ui")]
    | .fpToSi => [("opcode", Json.str "fp_to_si")]
    | .uiToFp => [("opcode", Json.str "ui_to_fp")]
    | .siToFp => [("opcode", Json.str "si_to_fp")]
    | .fpTrunc => [("opcode", Json.str "fp_trunc")]
    | .fpExt => [("opcode", Json.str "fp_ext")]
    | .ptrToInt sas =>
      [("opcode", Json.str "ptr_to_int"), ("src_address_space", Json.num sas)]
    | .intToPtr das =>
      [("opcode", Json.str "int_to_ptr"), ("dst_address_space", Json.num das)]
    | .bitcast => [("opcode", Json.str "bitcast")]
    | .addrSpaceCast sas das =>
      [("opcode", Json.str "address_space_cast"),
       ("src_address_space", Json.num sas),
       ("dst_address_space", Json.num das)]
  let o ← serialize_value ctxs ctx operand
  .ok (Json.obj (opFields ++
    [("src_ty", serialize_type srcTy), ("dst_ty", serialize_type dstTy), ("operand", o)]))
termination_by (1 + sizeOf operand, 0, 5)

/-- `serialize_inst_freeze`. -/
def serialize_inst_freeze (ctxs : Contexts) (ctx : FunctionSerializationContext)
    (operand : LValue) : Except String Json := do
  let o ← serialize_value ctxs ctx operand
  .ok (Json.obj [("operand", o)])
termination_by (1 + sizeOf operand, 0, 5)

/-- `serialize_inst_gep`: source/result element types, pointer, indices,
address space. -/
def serialize_inst_gep (ctxs : Contexts) (ctx : FunctionSerializationContext)
    (srcPointeeTy dstPointeeTy : LType) (pointer : LValue) (indices : List LValue)
    (addressSpace : Nat) : Except String Json := do
  let p ← serialize_value ctxs ctx pointer
  let idx ← serialize_value_list ctxs ctx indices
  .ok (Json.obj
    [("src_pointee_ty", serialize_type srcPointeeTy),
     ("dst_pointee_ty", serialize_type dstPointeeTy),
     ("pointer", p),
     ("indices", Json.arr idx),
     ("address_space", Json.num addressSpace)])
termination_by (1 + sizeOf pointer + sizeOf indices, 0, 5)

/-- `serialize_inst_phi`: one `{block, value}` entry per entry of
`inst.blocks()`, the value fetched through `getIncomingValueForBlock`
(lookup by block identity, i.e. the first pair bound to that block). -/
def serialize_inst_phi (ctxs : Contexts) (ctx : FunctionSerializationContext)
    (incoming : List (Nat × LValue)) : Except String Json := do
  let options ← serialize_phi_options ctxs ctx incoming incoming
  .ok (Json.obj [("options", Json.arr options)])
termination_by (1 + sizeOf incoming, 0, 5)

/-- The `for (block : inst.blocks())` loop of `serialize_inst_phi`:
`full` is the phi's complete incoming list used for the identity lookup. -/
def serialize_phi_options (ctxs : Contexts) (ctx : FunctionSerializationContext)
    (full : List (Nat × LValue)) :
    List (Nat × LValue) → Except String (List Json)
  | [] => .ok []
  | (blk, _) :: rest => do
    let label ← ctx.get_block_at blk
    match h : full.find? (fun p => p.1 == blk) with
    | none => .error "phi has no incoming value for block"
    | some pair => do
      let v ← serialize_value ctxs ctx pair.2
      let others ← serialize_phi_options ctxs ctx full rest
      .ok (Json.obj [("block", Json.num label), ("value", v)] :: others)
termination_by remaining => (sizeOf full, sizeOf remaining, 0)
decreasing_by
  · have hmem : pair ∈ full := List.mem_of_find?_eq_some h
    have h1 : sizeOf pair ≤ sizeOf full := le_of_lt (List.sizeOf_lt_of_mem hmem)
    have h2 : sizeOf pair.2 < sizeOf pair := by
      obtain ⟨a, b⟩ := pair
      simp_arith
    simp_wf
    exact Prod.Lex.left _ _ (by omega)
  · simp_wf
    exact Prod.Lex.right _ (Prod.Lex.left _ _ (by simp_arith))

/-- `serialize_inst_ite` (`SelectInst`). -/
def serialize_inst_ite (ctxs : Contexts) (ctx : FunctionSerializationContext)
    (cond thenValue elseValue : LValue) : Except String Json := do
  let c ← serialize_value ctxs ctx cond
  let t ← serialize_value ctxs ctx thenValue
  let e ← serialize_value ctxs ctx elseValue
  .ok (Json.obj [("cond", c), ("then_value", t), ("else_value", e)])
termination_by (1 + sizeOf cond + sizeOf thenValue + sizeOf elseValue, 0, 5)

/-- `serialize_inst_get_value` (`ExtractValueInst`). -/
def serialize_inst_get_value (ctxs : Contexts) (ctx : FunctionSerializationContext)
    (aggregate : LValue) (indices : List Nat) : Except String Json := do
  let a ← serialize_value ctxs ctx aggregate
  .ok (Json.obj
    [("from_ty", serialize_type aggregate.vty),
     ("aggregate", a),
     ("indices", Json.arr (indices.map (fun i => Json.num i)))])
termination_by (1 + sizeOf aggregate, 0, 5)

/-- `serialize_inst_set_value` (`InsertValueInst`). -/
def serialize_inst_set_value (ctxs : Contexts) (ctx : FunctionSerializationContext)
    (aggregate value : LValue) (indices : List Nat) : Except String Json := do
  let a ← serialize_value ctxs ctx aggregate
  let v ← serialize_value ctxs ctx value
  .ok (Json.obj
    [("aggregate", a), ("value", v),
     ("indices", Json.arr (indices.map (fun i => Json.num i)))])
termination_by (1 + sizeOf aggregate + sizeOf value, 0, 5)

/-- `serialize_inst_get_element` (`ExtractElementInst`). -/
def serialize_inst_get_element (ctxs : Contexts) (ctx : FunctionSerializationContext)
    (vector slot : LValue) : Except String Json := do
  let v ← serialize_value ctxs ctx vector
  let s ← serialize_value ctxs ctx slot
  .ok (Json.obj [("vec_ty", serialize_type vector.vty), ("vector", v), ("slot", s)])
termination_by (1 + sizeOf vector + sizeOf slot, 0, 5)

/-- `serialize_inst_set_element` (`InsertElementInst`). -/
def serialize_inst_set_element (ctxs : Contexts) (ctx : FunctionSerializationContext)
    (vector value slot : LValue) : Except String Json := do
  let v ← serialize_value ctxs ctx vector
  let x ← serialize_value ctxs ctx value
  let s ← serialize_value ctxs ctx slot
  .ok (Json.obj [("vector", v), ("value", x), ("slot", s)])
termination_by (1 + sizeOf vector + sizeOf value + sizeOf slot, 0, 5)

/-- `serialize_inst_shuffle_vector`. -/
def serialize_inst_shuffle_vector (ctxs : Contexts) (ctx : FunctionSerializationContext)
    (lhs rhs : LValue) (mask : List Int) : Except String Json := do
  let l ← serialize_value ctxs ctx lhs
  let r ← serialize_value ctxs ctx rhs
  .ok (Json.obj
    [("lhs", l), ("rhs", r),
     ("mask", Json.arr (mask.map (fun i => Json.num i)))])
termination_by (1 + sizeOf lhs + sizeOf rhs, 0, 5)

/-- `serialize_inst_atomic_cmpxchg`: note the pointee type is the
instruction's own result type `inst.getType()`. -/
def serialize_inst_atomic_cmpxchg (ctxs : Contexts) (ctx : FunctionSerializationContext)
    (ty : LType) (pointer valueCmp valueXchg : LValue) (addressSpace : Nat)
    (orderingSuccess orderingFailure : LOrdering) (scope : Nat) : Except String Json := do
  let p ← serialize_value ctxs ctx pointer
  let c ← serialize_value ctxs ctx valueCmp
  let x ← serialize_value ctxs ctx valueXchg
  .ok (Json.obj
    [("pointee_type", serialize_type ty),
     ("pointer", p),
     ("value_cmp", c),
     ("value_xchg", x),
     ("address_space", Json.num addressSpace),
     ("ordering_success", Json.str (toIRString orderingSuccess)),
     ("ordering_failure", Json.str (toIRString orderingFailure)),
     ("scope", Json.str (get_sync_scope_name scope))])
termination_by (1 + sizeOf pointer + sizeOf valueCmp + sizeOf valueXchg, 0, 5)

/-- `serialize_inst_atomic_rmw`: result type as pointee type, operand,
opcode (fatal on `BAD_BINOP`), ordering, scope. -/
def serialize_inst_atomic_rmw (ctxs : Contexts) (ctx : FunctionSerializationContext)
    (ty : LType) (operation : LRMWOp) (pointer value : LValue) (addressSpace : Nat)
    (ordering : LOrdering) (scope : Nat) : Except String Json := do
  let p ← serialize_value ctxs ctx pointer
  let v ← serialize_value ctxs ctx value
  match rmw_opcode operation with
  | none => .error "unexpected bad atomic-rmw operator"
  | some opcode =>
    .ok (Json.obj
      [("pointee_type", serialize_type ty),
       ("pointer", p),
       ("value", v),
       ("address_space", Json.num addressSpace),
       ("opcode", Json.str opcode),
       ("ordering", Json.str (toIRString ordering)),
       ("scope", Json.str (get_sync_scope_name scope))])
termination_by (1 + sizeOf pointer + sizeOf value, 0, 5)

/-- `serialize_inst_landing_pad`. -/
def serialize_inst_landing_pad (ctxs : Contexts) (ctx : FunctionSerializationContext)
    (clauses : List LConstant) (isCleanup : Bool) : Except String Json := do
  let cs ← serialize_constant_list ctxs clauses
  .ok (Json.obj [("clauses", Json.arr cs), ("is_cleanup", Json.bool isCleanup)])
termination_by (1 + sizeOf clauses, 0, 5)

/-- `serialize_inst_return`: optional return value. -/
def serialize_inst_return (ctxs : Contexts) (ctx : FunctionSerializationContext)
    (value : Option LValue) : Except String Json := do
  match value with
  | some v => do
    let j ← serialize_value ctxs ctx v
    .ok (Json.obj [("value", j)])
  | none => .ok (Json.obj [])
termination_by (1 + sizeOf value, 0, 5)

/-- `serialize_inst_branch`: optional condition, successor labels. -/
def serialize_inst_branch (ctxs : Contexts) (ctx : FunctionSerializationContext)
    (cond : Option LValue) (targets : List Nat) : Except String Json := do
  let c ← match cond with
    | some v => do
      let j ← serialize_value ctxs ctx v
      .ok [("cond", j)]
    | none => .ok []
  let ts ← get_block_targets ctx targets
  .ok (Json.obj (c ++ [("targets", Json.arr ts)]))
termination_by (1 + sizeOf cond, 0, 5)

/-- `serialize_inst_jump_indirect` (`IndirectBrInst`). -/
def serialize_inst_jump_indirect (ctxs : Contexts) (ctx : FunctionSerializationContext)
    (address : LValue) (targets : List Nat) : Except String Json := do
  let a ← serialize_value ctxs ctx address
  let ts ← get_block_targets ctx targets
  .ok (Json.obj [("address", a), ("targets", Json.arr ts)])
termination_by (1 + sizeOf address, 0, 5)

/-- `serialize_inst_switch`: condition type/value, the case loop (skipping
an entry whose case index equals the default handle's pseudo-index), and
the `default` label when the default handle differs from `case_end()`. -/
def serialize_inst_switch (ctxs : Contexts) (ctx : FunctionSerializationContext)
    (cond : LValue) (cases : List (LConstant × Nat)) (defaultBlock : Nat) :
    Except String Json := do
  let c ← serialize_value ctxs ctx cond
  let targets ← serialize_switch_cases ctxs ctx cases 0 cases.length
  let defFields ←
    if DefaultPseudoIndex ≠ cases.length then do
      let l ← ctx.get_block_at defaultBlock
      .ok [("default", Json.num l)]
    else
      .ok []
  .ok (Json.obj
    ([("cond_ty", serialize_type cond.vty), ("cond", c),
      ("cases", Json.arr targets)] ++ defFields))
termination_by (1 + sizeOf cond + sizeOf cases, 0, 5)

/-- The `for (succ : inst.cases())` loop of `serialize_inst_switch`:
`i` is the running case index, `numCases` the index of `case_end()`. -/
def serialize_switch_cases (ctxs : Contexts) (ctx : FunctionSerializationContext)
    (cases : List (LConstant × Nat)) (i : Nat) (numCases : Nat) :
    Except String (List Json) :=
  match cases with
  | [] => .ok []
  | (val, succ) :: rest =>
    if DefaultPseudoIndex ≠ numCases ∧ i = DefaultPseudoIndex then
      serialize_switch_cases ctxs ctx rest (i + 1) numCases
    else do
      let b ← ctx.get_block_at succ
      let v ← serialize_constant ctxs val
      let others ← serialize_switch_cases ctxs ctx rest (i + 1) numCases
      .ok (Json.obj [("block", Json.num b), ("value", v)] :: others)
termination_by (sizeOf cases, 0, 0)

/-- `serialize_inst_invoke_asm`. -/
def serialize_inst_invoke_asm (ctxs : Contexts) (ctx : FunctionSerializationContext)
    (asmCallee : LInlineAsm) (args : List LValue) (normal unwind : Nat) :
    Except String Json := do
  let as ← serialize_value_list ctxs ctx args
  let n ← ctx.get_block_at normal
  let u ← ctx.get_block_at unwind
  .ok (Json.obj
    [("asm", serialize_inline_asm asmCallee), ("args", Json.arr as),
     ("normal", Json.num n), ("unwind", Json.num u)])
termination_by (1 + sizeOf args, 0, 5)

/-- `serialize_inst_invoke_direct`. -/
def serialize_inst_invoke_direct (ctxs : Contexts) (ctx : FunctionSerializationContext)
    (callee : LValue) (targetType : LType) (args : List LValue) (normal unwind : Nat) :
    Except String Json := do
  let c ← serialize_value ctxs ctx callee
  let as ← serialize_value_list ctxs ctx args
  let n ← ctx.get_block_at normal
  let u ← ctx.get_block_at unwind
  .ok (Json.obj
    [("callee", c), ("target_type", serialize_type targetType), ("args", Json.arr as),
     ("normal", Json.num n), ("unwind", Json.num u)])
termination_by (1 + sizeOf callee + sizeOf args, 0, 5)

/-- `serialize_inst_invoke_indirect`. -/
def serialize_inst_invoke_indirect (ctxs : Contexts) (ctx : FunctionSerializationContext)
    (callee : LValue) (targetType : LType) (args : List LValue) (normal unwind : Nat) :
    Except String Json := do
  let c ← serialize_value ctxs ctx callee
  let as ← serialize_value_list ctxs ctx args
  let n ← ctx.get_block_at normal
  let u ← ctx.get_block_at unwind
  .ok (Json.obj
    [("callee", c), ("target_type", serialize_type targetType), ("args", Json.arr as),
     ("normal", Json.num n), ("unwind", Json.num u)])
termination_by (1 + sizeOf callee + sizeOf args, 0, 5)

/-- `serialize_inst_resume`. -/
def serialize_inst_resume (ctxs : Contexts) (ctx : FunctionSerializationContext)
    (value : LValue) : Except String Json := do
  let v ← serialize_value ctxs ctx value
  .ok (Json.obj [("value", v)])
termination_by (1 + sizeOf value, 0, 5)

end

/-! ## Instruction envelope, blocks, functions, globals, module
(`SerializeInstruction.cpp`, `SerializeFunction.cpp`,
`SerializeGlobalVariable.cpp`, `SerializeModule.cpp`, `Serializer.cpp`) -/

/-- `FunctionSerializationContext::serialize_instruction`: the
`{ty, index, name?, repr}` envelope. -/
def serialize_instruction (ctxs : Contexts) (ctx : FunctionSerializationContext)
    (inst : LInst) : Except String Json := do
  let index ← ctx.get_instruction_at inst.instId
  let nameFields : List (String × Json) :=
    match inst.instName with
    | some n => [("name", Json.str n)]
    | none => []
  let repr ← serialize_inst ctxs ctx inst
  .ok (Json.obj
    ([("ty", serialize_type inst.ty), ("index", Json.num index)] ++ nameFields ++
     [("repr", repr)]))

/-- The body loop of `serialize_block`: debug instructions are skipped
(the terminator is handled separately by the caller). -/
def serialize_block_body (ctxs : Contexts) (ctx : FunctionSerializationContext) :
    List LInst → Except String (List Json)
  | [] => .ok []
  | inst :: rest =>
    if is_debug_instruction inst then
      serialize_block_body ctxs ctx rest
    else do
      let j ← serialize_instruction ctxs ctx inst
      let js ← serialize_block_body ctxs ctx rest
      .ok (j :: js)

/-- `FunctionSerializationContext::serialize_block`: label, optional name,
filtered body, terminator outside the body. -/
def serialize_block (ctxs : Contexts) (ctx : FunctionSerializationContext)
    (block : LBlock) : Except String Json := do
  let label ← ctx.get_block_at block.id
  let nameFields : List (String × Json) :=
    match block.name with
    | some n => [("name", Json.str n)]
    | none => []
  let body ← serialize_block_body ctxs ctx block.body
  let term ← serialize_instruction ctxs ctx block.term
  .ok (Json.obj
    ([("label", Json.num label)] ++ nameFields ++
     [("body", Json.arr body), ("terminator", term)]))

/-- `serialize_parameter` (latest iteration): type, then name when
present. -/
def serialize_parameter (param : LArgument) : Json :=
  Json.obj
    ([("ty", serialize_type param.ty)] ++
     (match param.name with
      | some n => [("name", Json.str n)]
      | none => []))

/-- The `add_instruction` loop over a block's instruction list (terminator
included, it is the last instruction of the block). -/
def add_instructions_to_ctx (ctx : FunctionSerializationContext) :
    List LInst → Except String FunctionSerializationContext
  | [] => .ok ctx
  | inst :: rest =>
    match ctx.add_instruction inst.instId with
    | none => .error "duplicate instruction label"
    | some c => add_instructions_to_ctx c rest

/-- The `add_block` + inner `add_instruction` loops. -/
def add_blocks_to_ctx (ctx : FunctionSerializationContext) :
    List LBlock → Except String FunctionSerializationContext
  | [] => .ok ctx
  | block :: rest =>
    match ctx.add_block block.id with
    | none => .error "duplicate block label"
    | some c => do
      let c1 ← add_instructions_to_ctx c (block.body ++ [block.term])
      add_blocks_to_ctx c1 rest

/-- The `add_argument` loop. -/
def add_arguments_to_ctx (ctx : FunctionSerializationContext) :
    List LArgument → Except String FunctionSerializationContext
  | [] => .ok ctx
  | arg :: rest =>
    match ctx.add_argument arg.id with
    | none => .error "duplicate argument label"
    | some c => add_arguments_to_ctx c rest

/-- The parameter loop of `serialize_function`. -/
def serialize_parameter_list : List LArgument → List Json
  | [] => []
  | p :: ps => serialize_parameter p :: serialize_parameter_list ps

/-- The block loop of `serialize_function`. -/
def serialize_block_list (ctxs : Contexts) (ctx : FunctionSerializationContext) :
    List LBlock → Except String (List Json)
  | [] => .ok []
  | b :: bs => do
    let j ← serialize_block ctxs ctx b
    let js ← serialize_block_list ctxs ctx bs
    .ok (j :: js)

/-- `serialize_function` (latest iteration): name (unnamed logs an error and
continues), type, flags, parameters, then a freshly built local context
(blocks and instructions first, then arguments) and the block records. -/
def serialize_function (ctxs : Contexts) (func : LFunction) : Except String Json := do
  let nameFields : List (String × Json) :=
    match func.name with
    | some n => [("name", Json.str n)]
    | none => []
  let ctx0 ← add_blocks_to_ctx {} func.blocks
  let ctx1 ← add_arguments_to_ctx ctx0 func.args
  let blocks ← serialize_block_list ctxs ctx1 func.blocks
  .ok (Json.obj
    (nameFields ++
     [("ty", serialize_type func.ftype),
      ("is_defined", Json.bool (!func.isDeclaration)),
      ("is_exact", Json.bool func.isDefinitionExact),
      ("is_intrinsic", Json.bool (is_intrinsic_function func)),
      ("params", Json.arr (serialize_parameter_list func.args)),
      ("blocks", Json.arr blocks)]))

/-- `serialize_global_variable`: name (unnamed logs an error and continues),
value type, flags, address space, optional initializer. -/
def serialize_global_variable (ctxs : Contexts) (gvar : LGlobalVariable) :
    Except String Json := do
  let nameFields : List (String × Json) :=
    match gvar.name with
    | some n => [("name", Json.str n)]
    | none => []
  let initFields ← match gvar.initializer with
    | some c => do
      let j ← serialize_constant ctxs c
      .ok [("initializer", j)]
    | none => .ok []
  .ok (Json.obj
    (nameFields ++
     [("ty", serialize_type gvar.valueType),
      ("is_extern", Json.bool gvar.isExternallyInitialized),
      ("is_const", Json.bool gvar.isConst),
      ("is_defined", Json.bool (!gvar.isDeclaration)),
      ("is_exact", Json.bool gvar.isDefinitionExact),
      ("is_thread_local", Json.bool gvar.isThreadLocal),
      ("address_space", Json.num gvar.addressSpace)] ++ initFields))

/-- The global-variable loop of `serialize_module`. -/
def serialize_global_list (ctxs : Contexts) :
    List LGlobalVariable → Except String (List Json)
  | [] => .ok []
  | g :: gs => do
    let j ← serialize_global_variable ctxs g
    let js ← serialize_global_list ctxs gs
    .ok (j :: js)

/-- The function loop of `serialize_module`: debug functions are
filtered. -/
def serialize_function_list (ctxs : Contexts) :
    List LFunction → Except String (List Json)
  | [] => .ok []
  | f :: fs =>
    if is_debug_function f then
      serialize_function_list ctxs fs
    else do
      let j ← serialize_function ctxs f
      let js ← serialize_function_list ctxs fs
      .ok (j :: js)

/-- The identified-struct-type loop of `serialize_module`. -/
def serialize_struct_list : List (Option String × Option (List LType)) → List Json
  | [] => []
  | (n, fs) :: rest => serialize_type_struct n fs :: serialize_struct_list rest

/-- `serialize_module` (latest iteration): module identifier, inline asm,
identified struct types, globals, functions (debug functions filtered). -/
def serialize_module (ctxs : Contexts) (m : LModule) : Except String Json := do
  let globals ← serialize_global_list ctxs m.globals
  let functions ← serialize_function_list ctxs m.functions
  .ok (Json.obj
    [("name", Json.str m.moduleIdentifier),
     ("asm", Json.str m.moduleInlineAsm),
     ("structs", Json.arr (serialize_struct_list m.identifiedStructTypes)),
     ("global_variables", Json.arr globals),
     ("functions", Json.arr functions)])

/-- `std::map::emplace` on the process-wide `contexts` map: a no-op when the
function identity is already a key. -/
def contexts_emplace (ctxs : Contexts) (funcId : Nat)
    (ctx : FunctionSerializationContext) : Contexts :=
  match ctxs.lookup funcId with
  | some _ => ctxs
  | none => ctxs ++ [(funcId, ctx)]

/-- The function loop of `prepare_for_serialization`: debug functions are
skipped; otherwise arguments, then blocks with their instructions, are
labeled and the context is added to the global registry. -/
def prepare_functions (ctxs : Contexts) :
    List LFunction → Except String Contexts
  | [] => .ok ctxs
  | func :: rest =>
    if is_debug_function func then
      prepare_functions ctxs rest
    else do
      let c0 ← add_arguments_to_ctx {} func.args
      let c1 ← add_blocks_to_ctx c0 func.blocks
      prepare_functions (contexts_emplace ctxs func.id c1) rest

/-- `prepare_for_serialization` (latest iteration, `Serializer.cpp`):
populate the process-wide context registry. -/
def prepare_for_serialization (ctxs : Contexts) (m : LModule) :
    Except String Contexts :=
  prepare_functions ctxs m.functions

/-- The serialization phase of `LibraPass::run`: prepare all function
contexts, then serialize the module. -/
def run_serialization (ctxs : Contexts) (m : LModule) : Except String Json := do
  let ctxs1 ← prepare_for_serialization ctxs m
  serialize_module ctxs1 m

/-- The variant keys that `serialize_type` can produce. -/
def typeVariantKeys : List String :=
  ["Void", "Int", "Float", "Array", "Struct", "Function", "Pointer", "Vector",
   "Extension", "TypedPointer", "Label", "Token", "Metadata"]

/-- C6: `serialize_type` is total over the type universe, always yielding an
object with exactly one key drawn from the variant set, with the X86-AMX and
X86-MMX types emitted under the `Token` variant; the case analysis of the
embedding covers every type kind, so no type reaches a fatal path. -/
theorem serialize_type_total :
    (∀ t : LType, ∃ k v, serialize_type t = Json.obj [(k, v)] ∧ k ∈ typeVariantKeys) ∧
    serialize_type LType.x86amx = Json.obj [("Token", Json.null)] ∧
    serialize_type LType.x86mmx = Json.obj [("Token", Json.null)] := by
  refine ⟨fun t => ?_, by simp [serialize_type], by simp [serialize_type]⟩
  cases t <;> simp only [serialize_type] <;>
    exact ⟨_, _, rfl, by simp [typeVariantKeys]⟩

/-! ## C1: density and stability of the labeling context -/

/-- A sequence of `add_block` insertions. -/
def add_blocks_seq : FunctionSerializationContext → List Nat →
    Option FunctionSerializationContext
  | ctx, [] => some ctx
  | ctx, b :: bs =>
    match ctx.add_block b with
    | none => none
    | some c => add_blocks_seq c bs

/-- A sequence of `add_instruction` insertions. -/
def add_instructions_seq : FunctionSerializationContext → List Nat →
    Option FunctionSerializationContext
  | ctx, [] => some ctx
  | ctx, i :: is' =>
    match ctx.add_instruction i with
    | none => none
    | some c => add_instructions_seq c is'

/-- A sequence of `add_argument` insertions. -/
def add_arguments_seq : FunctionSerializationContext → List Nat →
    Option FunctionSerializationContext
  | ctx, [] => some ctx
  | ctx, a :: as' =>
    match ctx.add_argument a with
    | none => none
    | some c => add_arguments_seq c as'

theorem lookup_append_nat {β : Type} (l₁ l₂ : List (Nat × β)) (k : Nat) :
    (l₁ ++ l₂).lookup k =
      (match l₁.lookup k with
       | some v => some v
       | none => l₂.lookup k) := by
  induction l₁ with
  | nil => simp [List.lookup]
  | cons p rest ih =>
    obtain ⟨a, b⟩ := p
    simp only [List.cons_append, List.lookup]
    cases k == a
    · simp [ih]
    · rfl

theorem lookup_cons_ne {β : Type} (l : List (Nat × β)) (a k : Nat) (v : β)
    (h : k ≠ a) : ((a, v) :: l).lookup k = l.lookup k := by
  simp only [List.lookup]
  rw [show ((k == a) = false) from by simpa using h]

theorem zip_range_lookup_self (ids : List Nat) (hnd : ids.Nodup) :
    ∀ (s : Nat) (i : Nat) (h : i < ids.length),
      (ids.zip (List.range' s ids.length)).lookup ids[i] = some (s + i) := by
  induction ids with
  | nil => intro s i h; cases h
  | cons a rest ih =>
    intro s i h
    match i with
    | 0 => simp [List.range'_succ, List.lookup]
    | j + 1 =>
      have hj : j < rest.length := by simpa using h
      have hne : rest[j] ≠ a := by
        intro hcontra
        exact (List.nodup_cons.mp hnd).1 (hcontra ▸ List.getElem_mem hj)
      have hih := ih (List.nodup_cons.mp hnd).2 (s + 1) j hj
      simp only [List.range'_succ, List.zip_cons_cons, List.getElem_cons_succ,
        List.lookup]
      rw [show ((rest[j] == a) = false) from by simpa using hne]
      rw [show s + (j + 1) = s + 1 + j from by omega]
      exact hih

theorem zip_range_lookup_none (ids : List Nat) (k : Nat) (hk : k ∉ ids) :
    ∀ s : Nat, (ids.zip (List.range' s ids.length)).lookup k = none := by
  induction ids with
  | nil => intro s; simp [List.lookup]
  | cons a rest ih =>
    intro s
    have hka : k ≠ a := fun hc => hk (hc ▸ List.mem_cons_self a rest)
    have hkr : k ∉ rest := fun hc => hk (List.mem_cons_of_mem a hc)
    simp only [List.range'_succ, List.zip_cons_cons, List.lookup]
    rw [show ((k == a) = false) from by simpa using hka]
    exact ih hkr (s + 1)

theorem zip_range_lookup_bound (ids : List Nat) :
    ∀ (s k l : Nat), (ids.zip (List.range' s ids.length)).lookup k = some l →
      s ≤ l ∧ l < s + ids.length := by
  induction ids with
  | nil => intro s k l h; simp [List.lookup] at h
  | cons a rest ih =>
    intro s k l h
    simp only [List.range'_succ, List.zip_cons_cons, List.lookup] at h
    cases hk : (k == a)
    · rw [hk] at h
      have := ih (s + 1) k l h
      simp only [List.length_cons]
      omega
    · rw [hk] at h
      simp only [Option.some.injEq] at h
      simp only [List.length_cons]
      omega

theorem add_blocks_seq_eq (ids : List Nat) (hnd : ids.Nodup) :
    ∀ ctx : FunctionSerializationContext,
      (∀ id ∈ ids, ctx.block_labels.lookup id = none) →
      add_blocks_seq ctx ids = some
        { ctx with block_labels :=
            ctx.block_labels ++ ids.zip (List.range' ctx.block_labels.length ids.length) } := by
  induction ids with
  | nil => intro ctx _; simp [add_blocks_seq]
  | cons b bs ih =>
    intro ctx hfresh
    have hb : ctx.block_labels.lookup b = none := hfresh b (List.mem_cons_self b bs)
    have hstep : ctx.add_block b = some
        { ctx with block_labels := ctx.block_labels ++ [(b, ctx.block_labels.length)] } := by
      simp [FunctionSerializationContext.add_block, hb]
    have hfresh' : ∀ id ∈ bs,
        (ctx.block_labels ++ [(b, ctx.block_labels.length)]).lookup id = none := by
      intro id hid
      rw [lookup_append_nat]
      have h1 : ctx.block_labels.lookup id = none := hfresh id (List.mem_cons_of_mem b hid)
      have h2 : id ≠ b := fun hc => (List.nodup_cons.mp hnd).1 (hc ▸ hid)
      simp only [h1, List.lookup]
      rw [show ((id == b) = false) from by simpa using h2]
    have := ih (List.nodup_cons.mp hnd).2
      { ctx with block_labels := ctx.block_labels ++ [(b, ctx.block_labels.length)] } hfresh'
    simp only [add_blocks_seq, hstep, this]
    congr 1
    simp only [List.append_assoc, List.singleton_append, List.length_append,
      List.length_cons, List.length_nil]
    rw [List.range'_succ]
    simp [List.zip_cons_cons]

theorem add_instructions_seq_eq (ids : List Nat) (hnd : ids.Nodup) :
    ∀ ctx : FunctionSerializationContext,
      (∀ id ∈ ids, ctx.inst_labels.lookup id = none) →
      add_instructions_seq ctx ids = some
        { ctx with inst_labels :=
            ctx.inst_labels ++ ids.zip (List.range' ctx.inst_labels.length ids.length) } := by
  induction ids with
  | nil => intro ctx _; simp [add_instructions_seq]
  | cons b bs ih =>
    intro ctx hfresh
    have hb : ctx.inst_labels.lookup b = none := hfresh b (List.mem_cons_self b bs)
    have hstep : ctx.add_instruction b = some
        { ctx with inst_labels := ctx.inst_labels ++ [(b, ctx.inst_labels.length)] } := by
      simp [FunctionSerializationContext.add_instruction, hb]
    have hfresh' : ∀ id ∈ bs,
        (ctx.inst_labels ++ [(b, ctx.inst_labels.length)]).lookup id = none := by
      intro id hid
      rw [lookup_append_nat]
      have h1 : ctx.inst_labels.lookup id = none := hfresh id (List.mem_cons_of_mem b hid)
      have h2 : id ≠ b := fun hc => (List.nodup_cons.mp hnd).1 (hc ▸ hid)
      simp only [h1, List.lookup]
      rw [show ((id == b) = false) from by simpa using h2]
    have := ih (List.nodup_cons.mp hnd).2
      { ctx with inst_labels := ctx.inst_labels ++ [(b, ctx.inst_labels.length)] } hfresh'
    simp only [add_instructions_seq, hstep, this]
    congr 1
    simp only [List.append_assoc, List.singleton_append, List.length_append,
      List.length_cons, List.length_nil]
    rw [List.range'_succ]
    simp [List.zip_cons_cons]

theorem add_arguments_seq_eq (ids : List Nat) (hnd : ids.Nodup) :
    ∀ ctx : FunctionSerializationContext,
      (∀ id ∈ ids, ctx.arg_labels.lookup id = none) →
      add_arguments_seq ctx ids = some
        { ctx with arg_labels :=
            ctx.arg_labels ++ ids.zip (List.range' ctx.arg_labels.length ids.length) } := by
  induction ids with
  | nil => intro ctx _; simp [add_arguments_seq]
  | cons b bs ih =>
    intro ctx hfresh
    have hb : ctx.arg_labels.lookup b = none := hfresh b (List.mem_cons_self b bs)
    have hstep : ctx.add_argument b = some
        { ctx with arg_labels := ctx.arg_labels ++ [(b, ctx.arg_labels.length)] } := by
      simp [FunctionSerializationContext.add_argument, hb]
    have hfresh' : ∀ id ∈ bs,
        (ctx.arg_labels ++ [(b, ctx.arg_labels.length)]).lookup id = none := by
      intro id hid
      rw [lookup_append_nat]
      have h1 : ctx.arg_labels.lookup id = none := hfresh id (List.mem_cons_of_mem b hid)
      have h2 : id ≠ b := fun hc => (List.nodup_cons.mp hnd).1 (hc ▸ hid)
      simp only [h1, List.lookup]
      rw [show ((id == b) = false) from by simpa using h2]
    have := ih (List.nodup_cons.mp hnd).2
      { ctx with arg_labels := ctx.arg_labels ++ [(b, ctx.arg_labels.length)] } hfresh'
    simp only [add_arguments_seq, hstep, this]
    congr 1
    simp only [List.append_assoc, List.singleton_append, List.length_append,
      List.length_cons, List.length_nil]
    rw [List.range'_succ]
    simp [List.zip_cons_cons]

/-- The full labeling contract of a `FunctionSerializationContext` populated
by a sequence of insertions in each of the three namespaces. -/
def ContextLabelsSpec (blocks insts args : List Nat) : Prop :=
  ∃ ctx : FunctionSerializationContext,
    (add_blocks_seq {} blocks).bind
      (fun c1 => (add_instructions_seq c1 insts).bind
        (fun c2 => add_arguments_seq c2 args)) = some ctx ∧
    (∀ (i : Nat) (h : i < blocks.length), ctx.get_block blocks[i] = some i) ∧
    (∀ (i : Nat) (h : i < insts.length), ctx.get_instruction insts[i] = some i) ∧
    (∀ (i : Nat) (h : i < args.length), ctx.get_argument args[i] = some i) ∧
    (∀ l : Nat, (∃ b, ctx.get_block b = some l) ↔ l < blocks.length) ∧
    (∀ l : Nat, (∃ b, ctx.get_instruction b = some l) ↔ l < insts.length) ∧
    (∀ l : Nat, (∃ b, ctx.get_argument b = some l) ↔ l < args.length) ∧
    (∀ b ∈ blocks, ctx.add_block b = none) ∧
    (∀ b ∈ insts, ctx.add_instruction b = none) ∧
    (∀ b ∈ args, ctx.add_argument b = none) ∧
    (∀ b, b ∉ blocks → ctx.get_block b = none) ∧
    (∀ b, b ∉ insts → ctx.get_instruction b = none) ∧
    (∀ b, b ∉ args → ctx.get_argument b = none)

/-- C1: inserting pairwise-distinct entities through `add_block`,
`add_instruction` and `add_argument` assigns, independently per namespace,
exactly the dense labels `{0, …, n-1}` in insertion order; `get_block`,
`get_instruction` and `get_argument` return the label assigned at insertion;
re-inserting an already-inserted entity fails the assertion (`none`); and
querying an entity never inserted yields the missing-key defect (`none`). -/
theorem context_labels_spec (blocks insts args : List Nat)
    (hb : blocks.Nodup) (hi : insts.Nodup) (ha : args.Nodup) :
    ContextLabelsSpec blocks insts args := by
  have hbEq : add_blocks_seq {} blocks = some
      { block_labels := blocks.zip (List.range' 0 blocks.length),
        inst_labels := [], arg_labels := [] } := by
    have := add_blocks_seq_eq blocks hb {} (fun id _ => rfl)
    simpa using this
  have hiEq : add_instructions_seq
      { block_labels := blocks.zip (List.range' 0 blocks.length),
        inst_labels := [], arg_labels := [] } insts = some
      { block_labels := blocks.zip (List.range' 0 blocks.length),
        inst_labels := insts.zip (List.range' 0 insts.length),
        arg_labels := [] } := by
    have := add_instructions_seq_eq insts hi
      { block_labels := blocks.zip (List.range' 0 blocks.length),
        inst_labels := [], arg_labels := [] } (fun id _ => rfl)
    simpa using this
  have haEq : add_arguments_seq
      { block_labels := blocks.zip (List.range' 0 blocks.length),
        inst_labels := insts.zip (List.range' 0 insts.length),
        arg_labels := [] } args = some
      { block_labels := blocks.zip (List.range' 0 blocks.length),
        inst_labels := insts.zip (List.range' 0 insts.length),
        arg_labels := args.zip (List.range' 0 args.length) } := by
    have := add_arguments_seq_eq args ha
      { block_labels := blocks.zip (List.range' 0 blocks.length),
        inst_labels := insts.zip (List.range' 0 insts.length),
        arg_labels := [] } (fun id _ => rfl)
    simpa using this
  refine ⟨{ block_labels := blocks.zip (List.range' 0 blocks.length),
            inst_labels := insts.zip (List.range' 0 insts.length),
            arg_labels := args.zip (List.range' 0 args.length) },
          ?_, ?_, ?_, ?_, ?_, ?_, ?_, ?_, ?_, ?_, ?_, ?_, ?_⟩
  · rw [hbEq]
    simp only [Option.bind]
    rw [hiEq]
    simp only [Option.bind]
    exact haEq
  · intro i h
    have := zip_range_lookup_self blocks hb 0 i h
    simpa [FunctionSerializationContext.get_block] using this
  · intro i h
    have := zip_range_lookup_self insts hi 0 i h
    simpa [FunctionSerializationContext.get_instruction] using this
  · intro i h
    have := zip_range_lookup_self args ha 0 i h
    simpa [FunctionSerializationContext.get_argument] using this
  · intro l
    constructor
    · rintro ⟨b, hlk⟩
      have := zip_range_lookup_bound blocks 0 b l hlk
      omega
    · intro hl
      refine ⟨blocks[l], ?_⟩
      have := zip_range_lookup_self blocks hb 0 l hl
      simpa [FunctionSerializationContext.get_block] using this
  · intro l
    constructor
    · rintro ⟨b, hlk⟩
      have := zip_range_lookup_bound insts 0 b l hlk
      omega
    · intro hl
      refine ⟨insts[l], ?_⟩
      have := zip_range_lookup_self insts hi 0 l hl
      simpa [FunctionSerializationContext.get_instruction] using this
  · intro l
    constructor
    · rintro ⟨b, hlk⟩
      have := zip_range_lookup_bound args 0 b l hlk
      omega
    · intro hl
      refine ⟨args[l], ?_⟩
      have := zip_range_lookup_self args ha 0 l hl
      simpa [FunctionSerializationContext.get_argument] using this
  · intro b hmem
    obtain ⟨i, hlen, rfl⟩ := List.mem_iff_getElem.mp hmem
    have hlk := zip_range_lookup_self blocks hb 0 i hlen
    simp [FunctionSerializationContext.add_block, hlk]
  · intro b hmem
    obtain ⟨i, hlen, rfl⟩ := List.mem_iff_getElem.mp hmem
    have hlk := zip_range_lookup_self insts hi 0 i hlen
    simp [FunctionSerializationContext.add_instruction, hlk]
  · intro b hmem
    obtain ⟨i, hlen, rfl⟩ := List.mem_iff_getElem.mp hmem
    have hlk := zip_range_lookup_self args ha 0 i hlen
    simp [FunctionSerializationContext.add_argument, hlk]
  · intro b hmem
    exact zip_range_lookup_none blocks b hmem 0
  · intro b hmem
    exact zip_range_lookup_none insts b hmem 0
  · intro b hmem
    exact zip_range_lookup_none args b hmem 0

/-- Witness for C1 at concrete insertion sequences. -/
theorem context_labels_spec_witness :
    (([5, 7] : List Nat).Nodup ∧ ([3] : List Nat).Nodup ∧
      ([9, 4] : List Nat).Nodup) ∧
    ContextLabelsSpec [5, 7] [3] [9, 4] :=
  ⟨⟨by decide, by decide, by decide⟩,
   context_labels_spec [5, 7] [3] [9, 4] (by decide) (by decide) (by decide)⟩

/-! ## C10: the two marker constants are indistinguishable in the output -/

@[simp] theorem Except_ok_bind {ε α β : Type} (a : α) (f : α → Except ε β) :
    (Except.ok a : Except ε α) >>= f = f a := rfl

@[simp] theorem Except_error_bind {ε α β : Type} (e : ε) (f : α → Except ε β) :
    (Except.error e : Except ε α) >>= f = Except.error e := rfl

/-- C10: `serialize_const` renders the `dso_local_equivalent` marker and the
`no_cfi` marker of the same global value as the same object
`{Marker: {wrap: <serialization of g>}}`; the emitted document does not
record which marker kind wrapped the global. -/
theorem serialize_const_markers_equal (ctxs : Contexts) (ty : LType) (g : LConstant) :
    serialize_const ctxs (.mk ty (.cmarkerDSOLocal g)) =
      serialize_const ctxs (.mk ty (.cmarkerNoCFI g)) ∧
    (∀ jw, serialize_constant ctxs g = .ok jw →
      serialize_const ctxs (.mk ty (.cmarkerDSOLocal g)) =
        .ok (Json.obj [("Marker", Json.obj [("wrap", jw)])]) ∧
      serialize_const ctxs (.mk ty (.cmarkerNoCFI g)) =
        .ok (Json.obj [("Marker", Json.obj [("wrap", jw)])])) := by
  constructor
  · simp [serialize_const]
  · intro jw h
    constructor <;> simp [serialize_const, serialize_const_marker, h]

/-- Witness for C10: both markers around the named function `@f` serialize
to the same `{Marker: {wrap: …}}` object. -/
theorem serialize_const_markers_equal_witness :
    serialize_constant [] (.mk (.pointer 0) (.cfunc (some "f"))) =
      .ok (Json.obj
        [("ty", Json.obj [("Pointer", Json.obj [("address_space", Json.num 0)])]),
         ("repr", Json.obj [("Function", Json.obj [("name", Json.str "f")])])]) ∧
    serialize_const [] (.mk (.pointer 0)
      (.cmarkerDSOLocal (.mk (.pointer 0) (.cfunc (some "f"))))) =
      .ok (Json.obj [("Marker", Json.obj [("wrap",
        Json.obj
          [("ty", Json.obj [("Pointer", Json.obj [("address_space", Json.num 0)])]),
           ("repr", Json.obj [("Function", Json.obj [("name", Json.str "f")])])])])]) := by
  have hg : serialize_constant [] (.mk (.pointer 0) (.cfunc (some "f"))) =
      .ok (Json.obj
        [("ty", Json.obj [("Pointer", Json.obj [("address_space", Json.num 0)])]),
         ("repr", Json.obj [("Function", Json.obj [("name", Json.str "f")])])]) := by
    simp [serialize_constant, serialize_const, serialize_type,
      serialize_type_pointer, serialize_const_ref_function, serialize_const_ref_global]
  refine ⟨hg, ?_⟩
  exact ((serialize_const_markers_equal [] (.pointer 0)
    (.mk (.pointer 0) (.cfunc (some "f")))).2 _ hg).1

/-! ## C5: block-address serialization checks -/

/-- C5: serializing a block-address constant (`serialize_block_address`) or a
basic-block-as-value reference (`serialize_value_block`) fails fatally when
the owning function is unnamed, fails fatally when no context is registered
for that function, and otherwise (the block being labeled in the registered
context) returns `{func: <function name>, block: <label>}`. -/
theorem serialize_block_address_spec (ctxs : Contexts) (funcId : Nat)
    (funcName : Option String) (blockId : Nat) :
    (funcName = none →
      serialize_block_address ctxs funcId funcName blockId =
        .error "block address referring to an unnamed function" ∧
      serialize_value_block ctxs funcId funcName blockId =
        .error "block address referring to an unnamed function") ∧
    (∀ n, funcName = some n → ctxs.lookup funcId = none →
      serialize_block_address ctxs funcId funcName blockId =
        .error "function context not ready" ∧
      serialize_value_block ctxs funcId funcName blockId =
        .error "function context not ready") ∧
    (∀ n ctxt l, funcName = some n → ctxs.lookup funcId = some ctxt →
      ctxt.get_block blockId = some l →
      serialize_block_address ctxs funcId funcName blockId =
        .ok (Json.obj [("func", Json.str n), ("block", Json.num l)]) ∧
      serialize_value_block ctxs funcId funcName blockId =
        .ok (Json.obj [("func", Json.str n), ("block", Json.num l)])) := by
  refine ⟨?_, ?_, ?_⟩
  · intro h
    subst h
    exact ⟨rfl, rfl⟩
  · intro n hn hctx
    subst hn
    constructor <;> simp [serialize_block_address, serialize_value_block, hctx]
  · intro n ctxt l hn hctx hblk
    subst hn
    constructor <;>
      simp [serialize_block_address, serialize_value_block, hctx, hblk]

/-- Witness for C5: a registered context for function `"h"` (id 1) labeling
block 2 with label 0 yields `{func: "h", block: 0}`. -/
theorem serialize_block_address_spec_witness :
    ((some "h" : Option String) = some "h" ∧
      ([(1, ({ block_labels := [(2, 0)] } : FunctionSerializationContext))] :
        Contexts).lookup 1 =
        some ({ block_labels := [(2, 0)] } : FunctionSerializationContext) ∧
      ({ block_labels := [(2, 0)] } :
        FunctionSerializationContext).get_block 2 = some 0) ∧
    serialize_block_address
        [(1, ({ block_labels := [(2, 0)] } : FunctionSerializationContext))]
        1 (some "h") 2 =
      .ok (Json.obj [("func", Json.str "h"), ("block", Json.num 0)]) :=
  ⟨⟨rfl, by decide, by decide⟩,
   ((serialize_block_address_spec
      [(1, ({ block_labels := [(2, 0)] } : FunctionSerializationContext))]
      1 (some "h") 2).2.2 "h"
      ({ block_labels := [(2, 0)] } : FunctionSerializationContext)
      0 rfl (by decide) (by decide)).1⟩

/-! ## C7: the cmpxchg payload -/

/-- The context used by the cmpxchg scenario: three labeled arguments. -/
def cmpxchg_ctx : FunctionSerializationContext := { arg_labels := [(0, 0), (1, 1), (2, 2)] }

/-- The result type LLVM assigns to a `cmpxchg` over `i32`: the literal
struct `{i32, i1}`. -/
def cmpxchg_pair_ty : LType := .struct none (some [.integer 32, .integer 1])

/-- The serialized form of the 32-bit integer type. -/
def int32J : Json := Json.obj [("Int", Json.obj [("width", Json.num 32)])]

/-- The payload emitted for the cmpxchg scenario below. -/
def cmpxchg_out : Json :=
  Json.obj
    [("pointee_type",
      Json.obj [("Struct", Json.obj [("fields", Json.arr
        [int32J, Json.obj [("Int", Json.obj [("width", Json.num 1)])]])])]),
     ("pointer",
      Json.obj [("Argument", Json.obj
        [("ty", Json.obj [("Pointer", Json.obj [("address_space", Json.num 0)])]),
         ("index", Json.num 0)])]),
     ("value_cmp",
      Json.obj [("Argument", Json.obj [("ty", int32J), ("index", Json.num 1)])]),
     ("value_xchg",
      Json.obj [("Argument", Json.obj [("ty", int32J), ("index", Json.num 2)])]),
     ("address_space", Json.num 0),
     ("ordering_success", Json.str "acq_rel"),
     ("ordering_failure", Json.str "monotonic"),
     ("scope", Json.str "system")]

/-- C7: evaluating `serialize_inst_atomic_cmpxchg` on a `cmpxchg ptr, i32,
i32 acq_rel monotonic` in the system scope.  The ordering tokens and the
scope are emitted as the claim states, but `pointee_type` is the
serialization of the instruction's own result type — the pair `{i32, i1}` —
and differs from the serialization of the stored value's type `i32`. -/
theorem serialize_inst_atomic_cmpxchg_pair_type :
    serialize_inst_atomic_cmpxchg [] cmpxchg_ctx cmpxchg_pair_ty
        (.argument (.pointer 0) 0) (.argument (.integer 32) 1)
        (.argument (.integer 32) 2) 0 .acqRel .monotonic 1 = .ok cmpxchg_out ∧
      cmpxchg_out.lookup "ordering_success" = some (Json.str "acq_rel") ∧
      cmpxchg_out.lookup "ordering_failure" = some (Json.str "monotonic") ∧
      cmpxchg_out.lookup "scope" = some (Json.str "system") ∧
      cmpxchg_out.lookup "pointee_type" = some (serialize_type cmpxchg_pair_ty) ∧
      cmpxchg_out.lookup "pointee_type" ≠
        some (serialize_type (LValue.argument (.integer 32) 1).vty) := by
  refine ⟨?_, ?_, ?_, ?_, ?_, ?_⟩
  · simp [serialize_inst_atomic_cmpxchg, serialize_value, serialize_value_argument,
      FunctionSerializationContext.get_argument, cmpxchg_ctx, List.lookup,
      serialize_type, serialize_type_pointer, serialize_type_int, toIRString,
      get_sync_scope_name, SyncScope_System, cmpxchg_pair_ty, serialize_type_struct,
      serialize_type_list, cmpxchg_out, int32J]
  · simp [Json.lookup, List.lookup, cmpxchg_out]
  · simp [Json.lookup, List.lookup, cmpxchg_out]
  · simp [Json.lookup, List.lookup, cmpxchg_out]
  · simp [Json.lookup, List.lookup, cmpxchg_out, int32J, cmpxchg_pair_ty,
      serialize_type, serialize_type_struct, serialize_type_list, serialize_type_int]
  · simp [Json.lookup, List.lookup, cmpxchg_out, int32J, cmpxchg_pair_ty,
      serialize_type, serialize_type_struct, serialize_type_list, serialize_type_int,
      LValue.vty]

/-! ## C3: switch cases and the default successor -/

/-- The context used by the switch scenario: one labeled block. -/
def switch_ctx : FunctionSerializationContext := { block_labels := [(5, 0)] }

/-- The single case entry emitted in the switch scenario below. -/
def switch_case_out : Json :=
  Json.obj
    [("block", Json.num 0),
     ("value", Json.obj
       [("ty", int32J),
        ("repr", Json.obj [("Int", Json.obj [("value", Json.str "1")])])])]

/-- The payload emitted in the switch scenario below. -/
def switch_out : Json :=
  Json.obj
    [("cond_ty", int32J),
     ("cond", Json.obj [("Constant", Json.obj
       [("ty", int32J),
        ("repr", Json.obj [("Int", Json.obj [("value", Json.str "7")])])])]),
     ("cases", Json.arr [switch_case_out]),
     ("default", Json.num 0)]

/-- Counterexample to C3: a switch with a single explicit case whose
successor is the same block as the default successor.  The case is emitted
(the skip-by-case-index test never removes it) and its `block` field equals
the label in `default` — the default-case successor does appear among the
emitted `cases`. -/
theorem serialize_inst_switch_default_successor_in_cases :
    serialize_inst_switch [] switch_ctx
        (.constant (.mk (.integer 32) (.cint 7)))
        [(.mk (.integer 32) (.cint 1), 5)] 5 = .ok switch_out ∧
      switch_out.lookup "default" = some (Json.num 0) ∧
      switch_out.lookup "cases" = some (Json.arr [switch_case_out]) ∧
      ∃ c ∈ [switch_case_out], c.lookup "block" = some (Json.num 0) := by
  refine ⟨?_, ?_, ?_, ?_⟩
  · simp [serialize_inst_switch, serialize_switch_cases, serialize_value,
      serialize_constant, serialize_const, serialize_const_data_int,
      FunctionSerializationContext.get_block_at, FunctionSerializationContext.get_block,
      switch_ctx, List.lookup, serialize_type, serialize_type_int, LValue.vty,
      DefaultPseudoIndex, switch_out, switch_case_out, int32J]
    constructor <;> decide
  · simp [Json.lookup, List.lookup, switch_out]
  · simp [Json.lookup, List.lookup, switch_out]
  · exact ⟨_, List.mem_cons_self _ _, by simp [Json.lookup, List.lookup, switch_case_out]⟩

/-- The unfiltered case loop: every `{value, block}` pair of the switch in
declaration order. -/
def switch_cases_emitted (ctxs : Contexts) (ctx : FunctionSerializationContext) :
    List (LConstant × Nat) → Except String (List Json)
  | [] => .ok []
  | (val, succ) :: rest => do
    let b ← ctx.get_block_at succ
    let v ← serialize_constant ctxs val
    let others ← switch_cases_emitted ctxs ctx rest
    .ok (Json.obj [("block", Json.num b), ("value", v)] :: others)

theorem serialize_switch_cases_no_skip (ctxs : Contexts)
    (ctx : FunctionSerializationContext) (cases : List (LConstant × Nat)) :
    ∀ (i numCases : Nat), i + cases.length ≤ DefaultPseudoIndex →
      serialize_switch_cases ctxs ctx cases i numCases =
        switch_cases_emitted ctxs ctx cases := by
  induction cases with
  | nil => intro i numCases _; simp [serialize_switch_cases, switch_cases_emitted]
  | cons hd rest ih =>
    intro i numCases hbound
    obtain ⟨val, succ⟩ := hd
    have hi : i ≠ DefaultPseudoIndex := by
      simp only [List.length_cons] at hbound
      omega
    have hrest := ih (i + 1) numCases (by simp only [List.length_cons] at hbound; omega)
    simp only [serialize_switch_cases, switch_cases_emitted]
    rw [if_neg (by tauto)]
    rw [hrest]

/-- C3 (amended): for every switch whose explicit case count is below the
default pseudo-index (always, in practice), the serializer emits every
explicit case as a `{block, value}` pair in declaration order — the
skip-by-case-index test removes nothing, as `cases()` never includes the
default handle — and the default successor's label is emitted in the
separate `default` field.  An explicit case whose successor coincides with
the default block is still emitted among `cases`. -/
theorem serialize_inst_switch_spec (ctxs : Contexts)
    (ctx : FunctionSerializationContext) (cond : LValue)
    (cases : List (LConstant × Nat)) (defaultBlock : Nat)
    (hlen : cases.length < DefaultPseudoIndex) :
    serialize_inst_switch ctxs ctx cond cases defaultBlock = (do
      let c ← serialize_value ctxs ctx cond
      let targets ← switch_cases_emitted ctxs ctx cases
      let l ← ctx.get_block_at defaultBlock
      .ok (Json.obj
        [("cond_ty", serialize_type cond.vty), ("cond", c),
         ("cases", Json.arr targets), ("default", Json.num l)])) := by
  have hcases := serialize_switch_cases_no_skip ctxs ctx cases 0 cases.length
    (by omega)
  have hne : DefaultPseudoIndex ≠ cases.length := by omega
  simp only [serialize_inst_switch, hcases, if_pos hne]
  cases serialize_value ctxs ctx cond <;> simp

/-- Witness for the amended C3 at the concrete switch of the
counterexample. -/
theorem serialize_inst_switch_spec_witness :
    ([(LConstant.mk (.integer 32) (.cint 1), 5)].length < DefaultPseudoIndex) ∧
    serialize_inst_switch [] switch_ctx
        (.constant (.mk (.integer 32) (.cint 7)))
        [(.mk (.integer 32) (.cint 1), 5)] 5 = (do
      let c ← serialize_value [] switch_ctx (.constant (.mk (.integer 32) (.cint 7)))
      let targets ← switch_cases_emitted [] switch_ctx
        [(.mk (.integer 32) (.cint 1), 5)]
      let l ← switch_ctx.get_block_at 5
      .ok (Json.obj
        [("cond_ty", serialize_type (LValue.constant (.mk (.integer 32) (.cint 7))).vty),
         ("cond", c), ("cases", Json.arr targets), ("default", Json.num l)])) :=
  ⟨by decide,
   serialize_inst_switch_spec [] switch_ctx
     (.constant (.mk (.integer 32) (.cint 7)))
     [(.mk (.integer 32) (.cint 1), 5)] 5 (by decide)⟩

/-! ## C4: phi options — pairing and order -/

/-- The context used by the phi scenario: blocks 7 and 8 labeled 0 and 1. -/
def phi_ctx : FunctionSerializationContext := { block_labels := [(7, 0), (8, 1)] }

/-- The phi's incoming list in the scenario: block 8 (label 1) first, then
block 7 (label 0). -/
def phi_inc : List (Nat × LValue) :=
  [(8, .constant (.mk (.integer 32) (.cint 1))),
   (7, .constant (.mk (.integer 32) (.cint 2)))]

/-- The first emitted option in the phi scenario. -/
def phi_opt1 : Json :=
  Json.obj
    [("block", Json.num 1),
     ("value", Json.obj [("Constant", Json.obj
       [("ty", int32J),
        ("repr", Json.obj [("Int", Json.obj [("value", Json.str "1")])])])])]

/-- The second emitted option in the phi scenario. -/
def phi_opt2 : Json :=
  Json.obj
    [("block", Json.num 0),
     ("value", Json.obj [("Constant", Json.obj
       [("ty", int32J),
        ("repr", Json.obj [("Int", Json.obj [("value", Json.str "2")])])])])]

/-- The payload emitted in the phi scenario. -/
def phi_out : Json := Json.obj [("options", Json.arr [phi_opt1, phi_opt2])]

/-- Counterexample to C4: the phi's incoming list names the block with label
1 first and the block with label 0 second; the emitted `options` follow that
operand order, so their block labels are `[1, 0]` — not the increasing order
of the predecessor labels (which would require `1 ≤ 0`). -/
theorem serialize_inst_phi_options_not_sorted :
    serialize_inst_phi [] phi_ctx phi_inc = .ok phi_out ∧
    phi_opt1.lookup "block" = some (Json.num 1) ∧
    phi_opt2.lookup "block" = some (Json.num 0) ∧
    ¬ ((1 : Int) ≤ 0) := by
  refine ⟨?_, ?_, ?_, by decide⟩
  · simp [serialize_inst_phi, serialize_phi_options, serialize_value,
      serialize_constant, serialize_const, serialize_const_data_int,
      FunctionSerializationContext.get_block_at, FunctionSerializationContext.get_block,
      phi_ctx, phi_inc, List.lookup, serialize_type, serialize_type_int,
      phi_out, phi_opt1, phi_opt2, int32J, List.find?]
    constructor <;> decide
  · simp [Json.lookup, List.lookup, phi_opt1]
  · simp [Json.lookup, List.lookup, phi_opt2]

/-- `PHINode::getIncomingValueForBlock`: the value bound to the first
incoming entry for the given block (lookup by block identity). -/
def getIncomingValueForBlock (incoming : List (Nat × LValue)) (blk : Nat) :
    Option LValue :=
  (incoming.find? (fun p => p.1 == blk)).map (fun p => p.2)

theorem get_block_at_ok (ctx : FunctionSerializationContext) (b l : Nat) :
    ctx.get_block_at b = .ok l ↔ ctx.get_block b = some l := by
  unfold FunctionSerializationContext.get_block_at
  cases ctx.get_block b <;> simp

theorem serialize_phi_options_ok (ctxs : Contexts)
    (ctx : FunctionSerializationContext) (full : List (Nat × LValue)) :
    ∀ (remaining : List (Nat × LValue)) (out : List Json),
      serialize_phi_options ctxs ctx full remaining = .ok out →
      out.length = remaining.length ∧
      (∀ (i : Nat) (hi : i < remaining.length),
        ∃ (label : Nat) (v : LValue) (jv : Json),
          ctx.get_block (remaining[i]).1 = some label ∧
          getIncomingValueForBlock full (remaining[i]).1 = some v ∧
          serialize_value ctxs ctx v = .ok jv ∧
          out[i]? = some (Json.obj [("block", Json.num label), ("value", jv)])) := by
  intro remaining
  induction remaining with
  | nil =>
    intro out h
    simp only [serialize_phi_options] at h
    cases h
    exact ⟨rfl, fun i hi => absurd hi (by simp)⟩
  | cons hd rest ih =>
    intro out h
    obtain ⟨blk, w⟩ := hd
    simp only [serialize_phi_options] at h
    cases hgb : ctx.get_block_at blk with
    | error e => rw [hgb] at h; simp at h
    | ok label =>
      rw [hgb] at h
      simp only [Except_ok_bind] at h
      split at h
      · simp at h
      · rename_i pair hf
        cases hsv : serialize_value ctxs ctx pair.2 with
        | error e => rw [hsv] at h; simp at h
        | ok jv =>
          rw [hsv] at h
          simp only [Except_ok_bind] at h
          cases hrest : serialize_phi_options ctxs ctx full rest with
          | error e => rw [hrest] at h; simp at h
          | ok others =>
            rw [hrest] at h
            simp only [Except_ok_bind, Except.ok.injEq] at h
            subst h
            obtain ⟨ihlen, ihspec⟩ := ih others hrest
            refine ⟨by simp [ihlen], ?_⟩
            intro i hi
            match i with
            | 0 =>
              refine ⟨label, pair.2, jv, ?_, ?_, hsv, ?_⟩
              · simpa using (get_block_at_ok ctx blk label).mp hgb
              · simp [getIncomingValueForBlock, hf]
              · simp
            | j + 1 =>
              have hj : j < rest.length := by simpa using hi
              obtain ⟨label', v', jv', h1, h2, h3, h4⟩ := ihspec j hj
              exact ⟨label', v', jv', by simpa using h1, by simpa using h2, h3,
                by simpa using h4⟩

/-- C4 (amended): every emitted `options` entry is `{block: <label of B>,
value: <serialization of the value bound to B by block identity, i.e.
`getIncomingValueForBlock`>}`, and the entries appear in the order of the
phi's incoming-block operand list (entry `i` corresponds to the `i`-th
incoming block), not sorted by label. -/
theorem serialize_inst_phi_spec (ctxs : Contexts)
    (ctx : FunctionSerializationContext) (incoming : List (Nat × LValue))
    (j : Json) (h : serialize_inst_phi ctxs ctx incoming = .ok j) :
    ∃ options : List Json,
      j = Json.obj [("options", Json.arr options)] ∧
      options.length = incoming.length ∧
      ∀ (i : Nat) (hi : i < incoming.length),
        ∃ (label : Nat) (v : LValue) (jv : Json),
          ctx.get_block (incoming[i]).1 = some label ∧
          getIncomingValueForBlock incoming (incoming[i]).1 = some v ∧
          serialize_value ctxs ctx v = .ok jv ∧
          options[i]? = some (Json.obj [("block", Json.num label), ("value", jv)]) := by
  simp only [serialize_inst_phi] at h
  cases hopt : serialize_phi_options ctxs ctx incoming incoming with
  | error e => rw [hopt] at h; simp at h
  | ok options =>
    rw [hopt] at h
    simp only [Except_ok_bind, Except.ok.injEq] at h
    subst h
    obtain ⟨hlen, hspec⟩ := serialize_phi_options_ok ctxs ctx incoming incoming
      options hopt
    exact ⟨options, rfl, hlen, hspec⟩

/-- Witness for the amended C4 at the concrete phi of the counterexample. -/
theorem serialize_inst_phi_spec_witness :
    (serialize_inst_phi [] phi_ctx phi_inc = .ok phi_out) ∧
    (∃ options : List Json,
      phi_out = Json.obj [("options", Json.arr options)] ∧
      options.length = phi_inc.length ∧
      ∀ (i : Nat) (hi : i < phi_inc.length),
        ∃ (label : Nat) (v : LValue) (jv : Json),
          phi_ctx.get_block (phi_inc[i]).1 = some label ∧
          getIncomingValueForBlock phi_inc (phi_inc[i]).1 = some v ∧
          serialize_value [] phi_ctx v = .ok jv ∧
          options[i]? = some (Json.obj [("block", Json.num label), ("value", jv)])) := by
  have h : serialize_inst_phi [] phi_ctx phi_inc = .ok phi_out := by
    simp [serialize_inst_phi, serialize_phi_options, serialize_value,
      serialize_constant, serialize_const, serialize_const_data_int,
      FunctionSerializationContext.get_block_at, FunctionSerializationContext.get_block,
      phi_ctx, phi_inc, List.lookup, serialize_type, serialize_type_int,
      phi_out, phi_opt1, phi_opt2, int32J, List.find?]
    constructor <;> decide
  exact ⟨h, serialize_inst_phi_spec [] phi_ctx phi_inc phi_out h⟩

/-! ## C8: parameter serialization and attribute facets -/

/-- A parameter carrying a `byval` attribute referring to `i32`. -/
def byval_param : LArgument :=
  { id := 0, name := some "p", ty := .pointer 0, byval := some (.integer 32) }

/-- Counterexample to C8: `serialize_parameter` on an argument carrying a
`byval i32` attribute emits only `ty` and `name`; the `by_val` facet is
absent from the output. -/
theorem serialize_parameter_drops_facets :
    byval_param.byval = some (.integer 32) ∧
    serialize_parameter byval_param =
      Json.obj
        [("ty", Json.obj [("Pointer", Json.obj [("address_space", Json.num 0)])]),
         ("name", Json.str "p")] ∧
    (serialize_parameter byval_param).lookup "by_val" = none := by
  refine ⟨rfl, ?_, ?_⟩
  · simp [serialize_parameter, byval_param, serialize_type, serialize_type_pointer]
  · simp [serialize_parameter, byval_param, serialize_type, serialize_type_pointer,
      Json.lookup, List.lookup]

/-- C8 (amended): `serialize_parameter` emits the argument's type under `ty`
and its name under `name` when present, and nothing else: none of the
attribute facet fields (`by_val`, `by_ref`, `pre_allocated`, `struct_ret`,
`in_alloca`, `element_type`) is ever emitted, whatever attributes the
argument carries. -/
theorem serialize_parameter_spec (param : LArgument) :
    serialize_parameter param =
      Json.obj
        ([("ty", serialize_type param.ty)] ++
         (match param.name with
          | some n => [("name", Json.str n)]
          | none => [])) ∧
    ∀ k ∈ (["by_val", "by_ref", "pre_allocated", "struct_ret", "in_alloca",
            "element_type"] : List String),
      (serialize_parameter param).lookup k = none := by
  refine ⟨rfl, ?_⟩
  intro k hk
  fin_cases hk <;>
    cases hname : param.name <;>
      simp [serialize_parameter, hname, Json.lookup, List.lookup]

/-- Witness for the amended C8 at the `byval` parameter. -/
theorem serialize_parameter_spec_witness :
    ("by_val" ∈ (["by_val", "by_ref", "pre_allocated", "struct_ret", "in_alloca",
        "element_type"] : List String)) ∧
    (serialize_parameter byval_param).lookup "by_val" = none :=
  ⟨by decide, (serialize_parameter_spec byval_param).2 "by_val" (by decide)⟩

/-! ## Registry lemmas shared by C2 and C9 -/

theorem contexts_emplace_keeps (ctxs : Contexts) (fid : Nat)
    (c : FunctionSerializationContext) (k : Nat)
    (v : FunctionSerializationContext) (h : ctxs.lookup k = some v) :
    (contexts_emplace ctxs fid c).lookup k = some v := by
  unfold contexts_emplace
  cases hl : ctxs.lookup fid with
  | some _ => exact h
  | none =>
    rw [lookup_append_nat]
    simp [h]

theorem contexts_emplace_adds (ctxs : Contexts) (fid : Nat)
    (c : FunctionSerializationContext) (h : ctxs.lookup fid = none) :
    (contexts_emplace ctxs fid c).lookup fid = some c := by
  unfold contexts_emplace
  rw [h, lookup_append_nat, h]
  simp [List.lookup]

theorem contexts_emplace_other (ctxs : Contexts) (fid : Nat)
    (c : FunctionSerializationContext) (k : Nat) (hk : k ≠ fid)
    (h : ctxs.lookup k = none) :
    (contexts_emplace ctxs fid c).lookup k = none := by
  unfold contexts_emplace
  cases hl : ctxs.lookup fid with
  | some _ => exact h
  | none =>
    rw [lookup_append_nat, h, lookup_cons_ne _ _ _ _ hk]
    simp [List.lookup]

theorem contexts_emplace_isSome (ctxs : Contexts) (fid : Nat)
    (c : FunctionSerializationContext) :
    ((contexts_emplace ctxs fid c).lookup fid).isSome := by
  cases hl : ctxs.lookup fid with
  | some v => simp [contexts_emplace_keeps ctxs fid c fid v hl]
  | none => simp [contexts_emplace_adds ctxs fid c hl]

theorem contexts_emplace_noop (ctxs : Contexts) (fid : Nat)
    (c : FunctionSerializationContext) (h : (ctxs.lookup fid).isSome) :
    contexts_emplace ctxs fid c = ctxs := by
  unfold contexts_emplace
  cases hl : ctxs.lookup fid with
  | some _ => rfl
  | none => rw [hl] at h; simp at h

theorem prepare_functions_keeps (funcs : List LFunction) :
    ∀ (ctxs out : Contexts), prepare_functions ctxs funcs = .ok out →
      ∀ (k : Nat) (v : FunctionSerializationContext),
        ctxs.lookup k = some v → out.lookup k = some v := by
  induction funcs with
  | nil =>
    intro ctxs out h k v hv
    simp only [prepare_functions] at h
    cases h
    exact hv
  | cons g rest ih =>
    intro ctxs out h k v hv
    simp only [prepare_functions] at h
    split at h
    · exact ih ctxs out h k v hv
    · cases hA : add_arguments_to_ctx {} g.args with
      | error e => rw [hA] at h; simp at h
      | ok c0 =>
        rw [hA] at h
        simp only [Except_ok_bind] at h
        cases hB : add_blocks_to_ctx c0 g.blocks with
        | error e => rw [hB] at h; simp at h
        | ok c1 =>
          rw [hB] at h
          simp only [Except_ok_bind] at h
          exact ih _ out h k v (contexts_emplace_keeps ctxs g.id c1 k v hv)

theorem prepare_functions_isSome_mono (funcs : List LFunction)
    (ctxs out : Contexts) (h : prepare_functions ctxs funcs = .ok out)
    (k : Nat) (hk : (ctxs.lookup k).isSome) : (out.lookup k).isSome := by
  obtain ⟨v, hv⟩ := Option.isSome_iff_exists.mp hk
  simp [prepare_functions_keeps funcs ctxs out h k v hv]

theorem prepare_functions_none (funcs : List LFunction) :
    ∀ (ctxs out : Contexts), prepare_functions ctxs funcs = .ok out →
      ∀ k : Nat, ctxs.lookup k = none →
        (∀ f ∈ funcs, is_debug_function f = false → f.id ≠ k) →
        out.lookup k = none := by
  induction funcs with
  | nil =>
    intro ctxs out h k h0 _
    simp only [prepare_functions] at h
    cases h
    exact h0
  | cons g rest ih =>
    intro ctxs out h k h0 hall
    simp only [prepare_functions] at h
    split at h
    · exact ih ctxs out h k h0 fun f hf => hall f (List.mem_cons_of_mem g hf)
    · rename_i hgdbg
      cases hA : add_arguments_to_ctx {} g.args with
      | error e => rw [hA] at h; simp at h
      | ok c0 =>
        rw [hA] at h
        simp only [Except_ok_bind] at h
        cases hB : add_blocks_to_ctx c0 g.blocks with
        | error e => rw [hB] at h; simp at h
        | ok c1 =>
          rw [hB] at h
          simp only [Except_ok_bind] at h
          have hgid : g.id ≠ k :=
            hall g (List.mem_cons_self g rest) (by simpa using hgdbg)
          refine ih _ out h k ?_ fun f hf => hall f (List.mem_cons_of_mem g hf)
          exact contexts_emplace_other ctxs g.id c1 k (fun hc => hgid hc.symm) h0

theorem prepare_functions_registers (funcs : List LFunction) :
    ∀ (ctxs out : Contexts), prepare_functions ctxs funcs = .ok out →
      ∀ f ∈ funcs, is_debug_function f = false →
        (∀ g ∈ funcs, is_debug_function g = false → g.id = f.id → g = f) →
        ctxs.lookup f.id = none →
        ∃ c0 c1, add_arguments_to_ctx {} f.args = .ok c0 ∧
          add_blocks_to_ctx c0 f.blocks = .ok c1 ∧
          out.lookup f.id = some c1 := by
  induction funcs with
  | nil => intro ctxs out _ f hf; cases hf
  | cons g rest ih =>
    intro ctxs out h f hf hfdbg hinj hnot
    simp only [prepare_functions] at h
    split at h
    · rename_i hgdbg
      have hfg : f ≠ g := fun hc => by
        rw [hc, hgdbg] at hfdbg
        cases hfdbg
      have hfrest : f ∈ rest := by
        cases List.mem_cons.mp hf with
        | inl hc => exact absurd hc hfg
        | inr hr => exact hr
      exact ih ctxs out h f hfrest hfdbg
        (fun g' hg' => hinj g' (List.mem_cons_of_mem g hg')) hnot
    · rename_i hgdbg
      cases hA : add_arguments_to_ctx {} g.args with
      | error e => rw [hA] at h; simp at h
      | ok c0 =>
        rw [hA] at h
        simp only [Except_ok_bind] at h
        cases hB : add_blocks_to_ctx c0 g.blocks with
        | error e => rw [hB] at h; simp at h
        | ok c1 =>
          rw [hB] at h
          simp only [Except_ok_bind] at h
          by_cases hfg : f = g
          · subst hfg
            refine ⟨c0, c1, hA, hB, ?_⟩
            exact prepare_functions_keeps rest _ out h f.id c1
              (contexts_emplace_adds ctxs f.id c1 hnot)
          · have hfrest : f ∈ rest := by
              cases List.mem_cons.mp hf with
              | inl hc => exact absurd hc hfg
              | inr hr => exact hr
            have hgid : g.id ≠ f.id := fun hc => by
              exact hfg ((hinj g (List.mem_cons_self g rest) (by simpa using hgdbg) hc).symm)
            refine ih _ out h f hfrest hfdbg
              (fun g' hg' => hinj g' (List.mem_cons_of_mem g hg')) ?_
            exact contexts_emplace_other ctxs g.id c1 f.id
              (fun hc => hgid hc.symm) hnot

theorem prepare_functions_idem (funcs : List LFunction) :
    ∀ (ctxs out : Contexts), prepare_functions ctxs funcs = .ok out →
      prepare_functions out funcs = .ok out := by
  induction funcs with
  | nil =>
    intro ctxs out h
    simp only [prepare_functions] at h
    cases h
    simp only [prepare_functions]
  | cons g rest ih =>
    intro ctxs out h
    simp only [prepare_functions] at h ⊢
    split at h
    · rename_i hgdbg
      rw [if_pos hgdbg]
      exact ih ctxs out h
    · rename_i hgdbg
      rw [if_neg hgdbg]
      cases hA : add_arguments_to_ctx {} g.args with
      | error e => rw [hA] at h; simp at h
      | ok c0 =>
        rw [hA] at h
        simp only [Except_ok_bind] at h ⊢
        cases hB : add_blocks_to_ctx c0 g.blocks with
        | error e => rw [hB] at h; simp at h
        | ok c1 =>
          rw [hB] at h
          simp only [Except_ok_bind] at h ⊢
          have hsome : (out.lookup g.id).isSome :=
            prepare_functions_isSome_mono rest _ out h g.id
              (contexts_emplace_isSome ctxs g.id c1)
          rw [contexts_emplace_noop out g.id c1 hsome]
          exact ih _ out h

/-! ## C9: determinism across serialization runs -/

/-- C9: two serialization runs over the same unmodified module produce the
same document.  The embedding is a pure function of the module, and the only
process-wide state, the function-context registry, is idempotent across
runs: a second `prepare_for_serialization` over the registry left by the
first is a no-op (`std::map::emplace` on present keys does nothing), so the
second run's `serialize_module` sees the same registry and yields a
byte-identical document. -/
theorem run_serialization_deterministic (m : LModule) :
    (do
      let c1 ← prepare_for_serialization [] m
      serialize_module c1 m) =
    (do
      let c1 ← prepare_for_serialization [] m
      let c2 ← prepare_for_serialization c1 m
      serialize_module c2 m) := by
  unfold prepare_for_serialization
  cases h : prepare_functions [] m.functions with
  | error e => rfl
  | ok c1 =>
    simp only [Except_ok_bind]
    rw [prepare_functions_idem m.functions [] c1 h]
    simp only [Except_ok_bind]

/-! ## C2: debug filtering -/

theorem add_instruction_isSome (ctx c : FunctionSerializationContext) (k : Nat)
    (h : ctx.add_instruction k = some c) : (c.get_instruction k).isSome := by
  unfold FunctionSerializationContext.add_instruction at h
  split at h
  · cases h
  · rename_i hnone
    cases h
    simp only [FunctionSerializationContext.get_instruction]
    rw [lookup_append_nat, hnone]
    simp [List.lookup]

theorem add_instruction_keeps (ctx c : FunctionSerializationContext) (k k' : Nat)
    (h : ctx.add_instruction k = some c)
    (hk : (ctx.get_instruction k').isSome) : (c.get_instruction k').isSome := by
  unfold FunctionSerializationContext.add_instruction at h
  split at h
  · cases h
  · cases h
    obtain ⟨v, hv⟩ := Option.isSome_iff_exists.mp hk
    simp only [FunctionSerializationContext.get_instruction] at hv ⊢
    rw [lookup_append_nat, hv]
    simp

theorem add_block_get_instruction (ctx c : FunctionSerializationContext) (b : Nat)
    (h : ctx.add_block b = some c) (k : Nat) :
    c.get_instruction k = ctx.get_instruction k := by
  unfold FunctionSerializationContext.add_block at h
  split at h
  · cases h
  · cases h
    rfl

theorem add_instructions_to_ctx_mono (insts : List LInst) :
    ∀ (ctx c : FunctionSerializationContext),
      add_instructions_to_ctx ctx insts = .ok c →
      ∀ k, (ctx.get_instruction k).isSome → (c.get_instruction k).isSome := by
  induction insts with
  | nil =>
    intro ctx c h k hk
    simp only [add_instructions_to_ctx] at h
    cases h
    exact hk
  | cons i rest ih =>
    intro ctx c h k hk
    simp only [add_instructions_to_ctx] at h
    split at h
    · cases h
    · rename_i c1 hstep
      exact ih c1 c h k (add_instruction_keeps ctx c1 i.instId k hstep hk)

theorem add_instructions_to_ctx_adds (insts : List LInst) :
    ∀ (ctx c : FunctionSerializationContext),
      add_instructions_to_ctx ctx insts = .ok c →
      ∀ i ∈ insts, (c.get_instruction i.instId).isSome := by
  induction insts with
  | nil => intro ctx c _ i hi; cases hi
  | cons hd rest ih =>
    intro ctx c h i hi
    simp only [add_instructions_to_ctx] at h
    split at h
    · cases h
    · rename_i c1 hstep
      cases List.mem_cons.mp hi with
      | inl hc =>
        subst hc
        exact add_instructions_to_ctx_mono rest c1 c h i.instId
          (add_instruction_isSome ctx c1 i.instId hstep)
      | inr hr => exact ih c1 c h i hr

theorem add_blocks_to_ctx_inst_mono (blocks : List LBlock) :
    ∀ (ctx c : FunctionSerializationContext),
      add_blocks_to_ctx ctx blocks = .ok c →
      ∀ k, (ctx.get_instruction k).isSome → (c.get_instruction k).isSome := by
  induction blocks with
  | nil =>
    intro ctx c h k hk
    simp only [add_blocks_to_ctx] at h
    cases h
    exact hk
  | cons b rest ih =>
    intro ctx c h k hk
    simp only [add_blocks_to_ctx] at h
    split at h
    · cases h
    · rename_i c1 hstep
      cases hI : add_instructions_to_ctx c1 (b.body ++ [b.term]) with
      | error e => rw [hI] at h; simp at h
      | ok c2 =>
        rw [hI] at h
        simp only [Except_ok_bind] at h
        have hk1 : (c1.get_instruction k).isSome := by
          rw [add_block_get_instruction ctx c1 b.id hstep k]
          exact hk
        exact ih c2 c h k
          (add_instructions_to_ctx_mono (b.body ++ [b.term]) c1 c2 hI k hk1)

theorem add_blocks_to_ctx_all_insts (blocks : List LBlock) :
    ∀ (ctx c : FunctionSerializationContext),
      add_blocks_to_ctx ctx blocks = .ok c →
      ∀ b ∈ blocks, ∀ i ∈ b.body ++ [b.term],
        (c.get_instruction i.instId).isSome := by
  induction blocks with
  | nil => intro ctx c _ b hb; cases hb
  | cons hd rest ih =>
    intro ctx c h b hb i hi
    simp only [add_blocks_to_ctx] at h
    split at h
    · cases h
    · rename_i c1 hstep
      cases hI : add_instructions_to_ctx c1 (hd.body ++ [hd.term]) with
      | error e => rw [hI] at h; simp at h
      | ok c2 =>
        rw [hI] at h
        simp only [Except_ok_bind] at h
        cases List.mem_cons.mp hb with
        | inl hc =>
          subst hc
          exact add_blocks_to_ctx_inst_mono rest c2 c h i.instId
            (add_instructions_to_ctx_adds (b.body ++ [b.term]) c1 c2 hI i hi)
        | inr hr => exact ih c2 c h b hr i hi

theorem serialize_function_list_filter (ctxs : Contexts) (funcs : List LFunction) :
    serialize_function_list ctxs funcs =
      serialize_function_list ctxs
        (funcs.filter (fun f => !is_debug_function f)) := by
  induction funcs with
  | nil => rfl
  | cons g rest ih =>
    cases hdbg : is_debug_function g <;>
      simp [serialize_function_list, List.filter, hdbg, ih]

theorem serialize_block_body_filter (ctxs : Contexts)
    (ctx : FunctionSerializationContext) (insts : List LInst) :
    serialize_block_body ctxs ctx insts =
      serialize_block_body ctxs ctx
        (insts.filter (fun i => !is_debug_instruction i)) := by
  induction insts with
  | nil => rfl
  | cons i rest ih =>
    cases hdbg : is_debug_instruction i <;>
      simp [serialize_block_body, List.filter, hdbg, ih]

/-- C2 (amended): debug-info-intrinsic functions are omitted entirely — the
prepare phase registers no context for them and `serialize_module` never
emits them — and debug-info-intrinsic instructions are omitted from every
block's body (the body loop equals the loop over the debug-filtered list).
However, debug instructions inside a non-filtered function ARE assigned
labels during the prepare phase: the registered context labels every
instruction of every block, debug intrinsics included. -/
theorem debug_filtering_spec (m : LModule) (ctxs : Contexts)
    (hnd : (m.functions.map LFunction.id).Nodup)
    (hp : prepare_for_serialization [] m = .ok ctxs) :
    (∀ f ∈ m.functions, is_debug_function f = true → ctxs.lookup f.id = none) ∧
    (∀ cs : Contexts, serialize_function_list cs m.functions =
      serialize_function_list cs
        (m.functions.filter (fun f => !is_debug_function f))) ∧
    (∀ (cs : Contexts) (ctx : FunctionSerializationContext) (insts : List LInst),
      serialize_block_body cs ctx insts =
        serialize_block_body cs ctx
          (insts.filter (fun i => !is_debug_instruction i))) ∧
    (∀ f ∈ m.functions, is_debug_function f = false →
      ∃ c, ctxs.lookup f.id = some c ∧
        ∀ b ∈ f.blocks, ∀ i ∈ b.body ++ [b.term],
          (c.get_instruction i.instId).isSome) := by
  have hinj := List.inj_on_of_nodup_map hnd
  refine ⟨?_, fun cs => serialize_function_list_filter cs m.functions,
    fun cs ctx insts => serialize_block_body_filter cs ctx insts, ?_⟩
  · intro f hf hfdbg
    refine prepare_functions_none m.functions [] ctxs hp f.id rfl ?_
    intro g hg hgdbg hgid
    have : g = f := hinj hg hf hgid
    rw [this, hfdbg] at hgdbg
    cases hgdbg
  · intro f hf hfdbg
    obtain ⟨c0, c1, hA, hB, hout⟩ :=
      prepare_functions_registers m.functions [] ctxs hp f hf hfdbg
        (fun g hg _ hgid => hinj hg hf hgid) rfl
    exact ⟨c1, hout, fun b hb i hi =>
      add_blocks_to_ctx_all_insts f.blocks c0 c1 hB b hb i hi⟩

/-- The debug intrinsic call used by the C2 scenario (`llvm.dbg.declare`). -/
def dbg_inst : LInst :=
  .mk 20 none .void
    (.callIntrinsic Intrinsic_dbg_declare
      (.constant (.mk (.pointer 0) (.cfunc (some "llvm.dbg.declare"))))
      (.func [] false .void) [])

/-- A plain `add` instruction following the debug intrinsic. -/
def add_inst : LInst :=
  .mk 21 none (.integer 32)
    (.binop .add (.constant (.mk (.integer 32) (.cint 1)))
      (.constant (.mk (.integer 32) (.cint 2))))

/-- The terminator of the C2 scenario block. -/
def ret_inst : LInst := .mk 22 none .void (.ret none)

/-- The non-filtered function of the C2 scenario. -/
def fun_f : LFunction :=
  { id := 0, name := some "f", intrinsicId := 0, ftype := .func [] false .void,
    isDeclaration := false, isDefinitionExact := true, args := [],
    blocks := [{ id := 10, name := none, body := [dbg_inst, add_inst],
                 term := ret_inst }] }

/-- The debug-info-intrinsic function of the C2 scenario. -/
def fun_dbg : LFunction :=
  { id := 1, name := some "llvm.dbg.declare", intrinsicId := Intrinsic_dbg_declare,
    ftype := .func [] false .void, isDeclaration := true,
    isDefinitionExact := false, args := [], blocks := [] }

/-- The module of the C2 scenario. -/
def mod_m : LModule :=
  { moduleIdentifier := "m", moduleInlineAsm := "", identifiedStructTypes := [],
    globals := [], functions := [fun_f, fun_dbg] }

/-- Counterexample to C2: the prepare phase DOES assign a label to a
debug-info-intrinsic instruction inside a non-filtered function.  In the
scenario module, the `llvm.dbg.declare` call (id 20) receives instruction
label 0 in the registered context of `f`, and the following `add` receives
label 1 — the claim that debug instructions are assigned no label during
the prepare phase is false. -/
theorem prepare_labels_debug_instruction :
    is_debug_instruction dbg_inst = true ∧
    prepare_for_serialization [] mod_m = .ok
      [(0, { block_labels := [(10, 0)],
             inst_labels := [(20, 0), (21, 1), (22, 2)], arg_labels := [] })] ∧
    ({ block_labels := [(10, 0)], inst_labels := [(20, 0), (21, 1), (22, 2)],
       arg_labels := [] } : FunctionSerializationContext).get_instruction
        dbg_inst.instId = some 0 ∧
    ({ block_labels := [(10, 0)], inst_labels := [(20, 0), (21, 1), (22, 2)],
       arg_labels := [] } : FunctionSerializationContext).get_instruction
        add_inst.instId = some 1 :=
  ⟨rfl, rfl, rfl, rfl⟩

/-- Witness for the amended C2 at the scenario module. -/
theorem debug_filtering_spec_witness :
    ((mod_m.functions.map LFunction.id).Nodup ∧
      prepare_for_serialization [] mod_m = .ok
        [(0, { block_labels := [(10, 0)],
               inst_labels := [(20, 0), (21, 1), (22, 2)], arg_labels := [] })]) ∧
    (∀ f ∈ mod_m.functions, is_debug_function f = true →
      ([(0, ({ block_labels := [(10, 0)],
               inst_labels := [(20, 0), (21, 1), (22, 2)], arg_labels := [] } :
               FunctionSerializationContext))] : Contexts).lookup f.id = none) :=
  ⟨⟨by decide, rfl⟩,
   (debug_filtering_spec mod_m
     [(0, { block_labels := [(10, 0)],
            inst_labels := [(20, 0), (21, 1), (22, 2)], arg_labels := [] })]
     (by decide) rfl).1⟩

end LibraSpec
